import Mathlib

/-!
# Heavy-hitter detector XDP program (`src/project/ebpf/hhd_v2.bpf.c`)

A shallow embedding of the XDP program and proofs about it.

Conventions of the embedding.

* A frame is a list of bytes; `ctx->data` is offset `0` and `ctx->data_end` is the
  length of the list.  Pointers into the frame are offsets.
* Every memory access of the program is a `load*`/`memcpy6` returning `Option`;
  `none` is an access outside `[data, data_end)`.
* Machine integers are `Nat`/`Int`; the 16-bit cursor wraps with `% 65536`, the
  64-bit counters wrap with `% 2 ^ 64`.
* The program is endianness agnostic (`bpf_htons`/`bpf_ntohs`); the host byte order
  is the parameter `be` (`true` = big endian).
* The hash primitives (`fasthash.h`, `jhash.h`), the routing maps and the redirect
  helper are external to the file and are fields of `Env`.
* `bpf_printk` only emits trace lines and is not modelled.
-/

namespace HHD

/-! ## Frame memory -/

/-- One octet of frame memory. -/
abbrev Byte := Fin 256

/-- Truncation of an integer to one octet. -/
def toByte (n : Nat) : Byte := ⟨n % 256, Nat.mod_lt _ (by decide)⟩

/-- Bounds-checked one-byte read at offset `off`. -/
def load8 (pkt : List Byte) (off : Nat) : Option Nat :=
  match pkt[off]? with
  | some b => some b.val
  | none => none

/-- Bounds-checked host-order 16-bit read. -/
def load16 (be : Bool) (pkt : List Byte) (off : Nat) : Option Nat :=
  match load8 pkt off, load8 pkt (off + 1) with
  | some b0, some b1 => some (if be then b0 * 256 + b1 else b0 + b1 * 256)
  | _, _ => none

/-- Bounds-checked host-order 32-bit read. -/
def load32 (be : Bool) (pkt : List Byte) (off : Nat) : Option Nat :=
  match load8 pkt off, load8 pkt (off + 1), load8 pkt (off + 2), load8 pkt (off + 3) with
  | some b0, some b1, some b2, some b3 =>
    some (if be then b0 * 16777216 + b1 * 65536 + b2 * 256 + b3
          else b0 + b1 * 256 + b2 * 65536 + b3 * 16777216)
  | _, _, _, _ => none

/-- The macro `bpf_htons`: identity on a big-endian host, byte swap otherwise. -/
def bpf_htons (be : Bool) (x : Nat) : Nat :=
  if be then x % 65536 else (x % 256) * 256 + (x / 256) % 256

/-- The macro `bpf_ntohs`: the same conversion as `bpf_htons`. -/
def bpf_ntohs (be : Bool) (x : Nat) : Nat :=
  if be then x % 65536 else (x % 256) * 256 + (x / 256) % 256

/-- Byte of the frame at `off`, `0` outside the frame (used in statements only). -/
def rd (pkt : List Byte) (off : Nat) : Nat :=
  match pkt[off]? with
  | some b => b.val
  | none => 0

/-- `__builtin_memcpy(dst, src, ETH_ALEN)` into the frame, bounds-checked. -/
def memcpy6 (pkt : List Byte) (dst : Nat) (src : Fin 6 → Byte) : Option (List Byte) :=
  if dst + 6 ≤ pkt.length then
    some ((((((pkt.set dst (src 0)).set (dst + 1) (src 1)).set (dst + 2) (src 2)).set
      (dst + 3) (src 3)).set (dst + 4) (src 4)).set (dst + 5) (src 5))
  else none

/-! ## Constants -/

def BLOOM_FILTER_ENTRIES : Nat := 4096
def FASTHASH_SEED : Nat := 0xdeadbeef
def JHASH_SEED : Nat := 0x2d31e867

def ETH_P_ARP : Nat := 0x0806
def ETH_P_IP : Nat := 0x0800
def IPPROTO_TCP : Int := 6
def IPPROTO_UDP : Int := 17

def XDP_ABORTED : Int := 0
def XDP_DROP : Int := 1
def XDP_PASS : Int := 2
def XDP_REDIRECT : Int := 4

/-- Value of `sizeof(struct ethhdr)`. -/
def sizeof_ethhdr : Nat := 14
/-- Value of `sizeof(struct iphdr)`. -/
def sizeof_iphdr : Nat := 20
/-- Value of `sizeof(struct tcphdr)`. -/
def sizeof_tcphdr : Nat := 20
/-- Value of `sizeof(struct udphdr)`. -/
def sizeof_udphdr : Nat := 8

/-! ## Data model -/

/-- The C object `struct flow_info`: fields at offsets 0, 4, 8, 10, 12 and, the struct
being 4-byte aligned and not packed, three tail padding bytes at offsets 13..15. -/
structure flow_info where
  source_ip : Nat
  dest_ip : Nat
  source_port : Nat
  dest_port : Nat
  protocol : Nat
  pad0 : Byte
  pad1 : Byte
  pad2 : Byte
deriving DecidableEq

/-- Value of `sizeof(struct flow_info)`: 13 bytes of fields rounded up to the alignment 4. -/
def sizeof_flow_info : Nat := 16

/-- Host-order memory image of a 16-bit field. -/
def bytes16 (be : Bool) (x : Nat) : List Byte :=
  if be then [toByte (x / 256), toByte x] else [toByte x, toByte (x / 256)]

/-- Host-order memory image of a 32-bit field. -/
def bytes32 (be : Bool) (x : Nat) : List Byte :=
  if be then [toByte (x / 16777216), toByte (x / 65536), toByte (x / 256), toByte x]
  else [toByte x, toByte (x / 256), toByte (x / 65536), toByte (x / 16777216)]

/-- The `sizeof(struct flow_info)` bytes of memory at `&info`. -/
def flow_info_bytes (be : Bool) (info : flow_info) : List Byte :=
  bytes32 be info.source_ip ++ bytes32 be info.dest_ip ++ bytes16 be info.source_port ++
    bytes16 be info.dest_port ++ [toByte info.protocol, info.pad0, info.pad1, info.pad2]

/-- Modelled from the spec: the value type of `ipv4_lookup_map`, declared in the missing
header `hhd_v2_utils.bpf.h` (egress port as an 8-bit integer, destination MAC of 6 bytes). -/
structure ipv4_lookup_val where
  outPort : Byte
  dstMac : Fin 6 → Byte

/-- Modelled from the spec: the value type of `src_mac_map`, declared in the missing
header `hhd_v2_utils.bpf.h` (source MAC of 6 bytes). -/
structure src_mac_val where
  srcMac : Fin 6 → Byte

/-- Everything the program reads but does not own: byte order of the host, the
configured threshold, the two hash primitives (bytes, length, seed), the two routing
maps and the redirect helper (key, flags). -/
structure Env where
  bigEndian : Bool
  threshold : Nat
  fasthash32 : List Byte → Nat → Nat → Nat
  jhash : List Byte → Nat → Nat → Nat
  ipv4_lookup_map : Nat → Option ipv4_lookup_val
  src_mac_map : Nat → Option src_mac_val
  bpf_redirect_map : Nat → Nat → Int

/-- Outcome of one header parser: the returned `int`, the updated cursor `*nh_off`
and the header pointer written through the last argument (`none` when not written). -/
structure ParseResult where
  ret : Int
  nh_off : Nat
  hdr : Option Nat
deriving DecidableEq

/-- Outcome of one invocation: returned action, frame memory, counting table and the
key handed to `bpf_redirect_map` when that helper was called. -/
structure XdpResult where
  action : Int
  pkt : List Byte
  bloom : Nat → Nat
  redirect : Option Nat

/-! ## Header parsers -/

def parse_ethhdr (be : Bool) (pkt : List Byte) (data : Nat) (nh_off : Nat) :
    Option ParseResult :=
  let eth := data
  let hdr_size := sizeof_ethhdr
  if eth + hdr_size > pkt.length then some ⟨-1, nh_off, none⟩
  else
    match load16 be pkt (eth + 12) with
    | none => none
    | some h_proto => some ⟨(h_proto : Int), (nh_off + hdr_size) % 65536, some eth⟩

def parse_iphdr (pkt : List Byte) (data : Nat) (nh_off : Nat) : Option ParseResult :=
  let ip := data
  if ip + sizeof_iphdr > pkt.length then some ⟨-1, nh_off, none⟩
  else
    match load8 pkt ip with
    | none => none
    | some vihl =>
      let hdr_size := (vihl % 16) * 4
      if hdr_size < sizeof_iphdr then some ⟨-1, nh_off, none⟩
      else if ip + hdr_size > pkt.length then some ⟨-1, nh_off, none⟩
      else
        match load8 pkt (ip + 9) with
        | none => none
        | some protocol => some ⟨(protocol : Int), (nh_off + hdr_size) % 65536, some ip⟩

def parse_tcphdr (pkt : List Byte) (data : Nat) (nh_off : Nat) : Option ParseResult :=
  let tcp := data
  if tcp + sizeof_tcphdr > pkt.length then some ⟨-1, nh_off, none⟩
  else
    match load8 pkt (tcp + 12) with
    | none => none
    | some doffres =>
      let hdr_size := (doffres / 16) * 4
      if hdr_size < sizeof_tcphdr ∨ hdr_size > 60 then some ⟨-1, nh_off, none⟩
      else if tcp + hdr_size > pkt.length then some ⟨-1, nh_off, none⟩
      else some ⟨(hdr_size : Int), (nh_off + hdr_size) % 65536, some tcp⟩

def parse_udphdr (be : Bool) (pkt : List Byte) (data : Nat) (nh_off : Nat) :
    Option ParseResult :=
  let udp := data
  let hdr_size := sizeof_udphdr
  if udp + hdr_size > pkt.length then some ⟨-1, nh_off, none⟩
  else
    match load16 be pkt (udp + 4) with
    | none => none
    | some len =>
      if bpf_ntohs be len < hdr_size then some ⟨-1, nh_off, none⟩
      else some ⟨(hdr_size : Int), (nh_off + hdr_size) % 65536, some udp⟩

/-! ## Counting table -/

/-- The helper `bpf_map_lookup_elem` on the array map `bloom_filter_map`: a pointer to
the slot (modelled by its index) for keys below `max_entries`, `NULL` otherwise. -/
def bloom_lookup (key : Nat) : Option Nat :=
  if key < BLOOM_FILTER_ENTRIES then some key else none

def lookup_and_increment_counter (bloom : Nat → Nat) (hash : Nat) :
    Option Nat × (Nat → Nat) :=
  match bloom_lookup hash with
  | some p => (some p, fun j => if j = p then (bloom p + 1) % 2 ^ 64 else bloom j)
  | none => (none, bloom)

/-- Line 242: the first table index. -/
def h_fasthash (env : Env) (info : flow_info) : Nat :=
  (env.fasthash32 (flow_info_bytes env.bigEndian info) sizeof_flow_info FASTHASH_SEED
    % 2 ^ 32) % BLOOM_FILTER_ENTRIES

/-- Line 243: the second table index. -/
def h_jhash (env : Env) (info : flow_info) : Nat :=
  (env.jhash (flow_info_bytes env.bigEndian info) sizeof_flow_info JHASH_SEED
    % 2 ^ 32) % BLOOM_FILTER_ENTRIES

/-! ## The program -/

/-- Where the parsing half of `xdp_hhd_v2` (lines 136-225) leaves control: a `return`,
the fall-through into the detector, or the `goto forward`. -/
inductive Parsed where
  | ret (action : Int)
  | hhd (eth : Option Nat) (info : flow_info)
  | fwd (eth : Option Nat) (info : flow_info)
deriving DecidableEq

/-- Lines 136-225 of `xdp_hhd_v2`; `info0` is the indeterminate initial content of the
automatic variable `info`. -/
def xdp_parse (be : Bool) (info0 : flow_info) (pkt : List Byte) : Option Parsed :=
  let data := 0
  let nf_off := 0
  match parse_ethhdr be pkt data nf_off with
  | none => none
  | some pe =>
    let nf_off := pe.nh_off
    let eth_type := (pe.ret % 65536).toNat
    if data + sizeof_ethhdr > pkt.length then some (Parsed.ret XDP_DROP)
    else if eth_type = bpf_htons be ETH_P_ARP then some (Parsed.ret XDP_PASS)
    else if eth_type ≠ bpf_htons be ETH_P_IP then some (Parsed.ret XDP_DROP)
    else
      match parse_iphdr pkt (data + nf_off) nf_off with
      | none => none
      | some pi =>
        let nf_off := pi.nh_off
        let ip_type := pi.ret
        if ip_type < 0 then some (Parsed.ret XDP_DROP)
        else
          match pi.hdr with
          | none => none
          | some ip =>
            match load32 be pkt (ip + 12), load32 be pkt (ip + 16) with
            | some saddr, some daddr =>
              let info := { info0 with
                source_ip := saddr, dest_ip := daddr, protocol := (ip_type % 256).toNat }
              if ip_type = IPPROTO_TCP then
                match parse_tcphdr pkt (data + nf_off) nf_off with
                | none => none
                | some pt =>
                  if pt.ret < 0 then some (Parsed.ret XDP_DROP)
                  else
                    match pt.hdr with
                    | none => none
                    | some tcp =>
                      match load16 be pkt tcp, load16 be pkt (tcp + 2) with
                      | some sp, some dp =>
                        some (Parsed.hhd pe.hdr { info with source_port := sp, dest_port := dp })
                      | _, _ => none
              else if ip_type = IPPROTO_UDP then
                match parse_udphdr be pkt (data + nf_off) nf_off with
                | none => none
                | some pu =>
                  if pu.ret < 0 then some (Parsed.ret XDP_DROP)
                  else
                    match pu.hdr with
                    | none => none
                    | some udp =>
                      match load16 be pkt udp, load16 be pkt (udp + 2) with
                      | some sp, some dp =>
                        some (Parsed.hhd pe.hdr { info with source_port := sp, dest_port := dp })
                      | _, _ => none
              else some (Parsed.fwd pe.hdr info)
            | _, _ => none

/-- Lines 270-322 of `xdp_hhd_v2`: the code from the label `forward` to the end. -/
def xdp_forward (env : Env) (bloom : Nat → Nat) (pkt : List Byte) (eth : Option Nat)
    (info : flow_info) : Option XdpResult :=
  let ipv4_lookup_map_key := info.dest_ip
  match env.ipv4_lookup_map ipv4_lookup_map_key with
  | none => some ⟨XDP_ABORTED, pkt, bloom, none⟩
  | some val =>
    if val.outPort.val < 1 ∨ val.outPort.val > 4 then some ⟨XDP_ABORTED, pkt, bloom, none⟩
    else
      let src_mac_key := val.outPort.val
      match env.src_mac_map src_mac_key with
      | none => some ⟨XDP_ABORTED, pkt, bloom, none⟩
      | some smv =>
        match eth with
        | none => none
        | some e =>
          match memcpy6 pkt (e + 6) smv.srcMac with
          | none => none
          | some pkt1 =>
            match memcpy6 pkt1 e val.dstMac with
            | none => none
            | some pkt2 =>
              let action := env.bpf_redirect_map val.outPort.val 0
              if action ≠ XDP_REDIRECT then
                some ⟨XDP_ABORTED, pkt2, bloom, some val.outPort.val⟩
              else some ⟨action, pkt2, bloom, some val.outPort.val⟩

/-- The XDP program: parsing (lines 136-225), detector (lines 242-268), forwarding. -/
def xdp_hhd_v2 (env : Env) (info0 : flow_info) (bloom : Nat → Nat) (pkt : List Byte) :
    Option XdpResult :=
  match xdp_parse env.bigEndian info0 pkt with
  | none => none
  | some (Parsed.ret a) => some ⟨a, pkt, bloom, none⟩
  | some (Parsed.fwd eth info) => xdp_forward env bloom pkt eth info
  | some (Parsed.hhd eth info) =>
    let hf := h_fasthash env info
    let hj := h_jhash env info
    if hf ≥ BLOOM_FILTER_ENTRIES ∨ hj ≥ BLOOM_FILTER_ENTRIES then
      some ⟨XDP_ABORTED, pkt, bloom, none⟩
    else
      match lookup_and_increment_counter bloom hf with
      | (none, bloom1) => some ⟨XDP_ABORTED, pkt, bloom1, none⟩
      | (some counter_fasthash, bloom1) =>
        match lookup_and_increment_counter bloom1 hj with
        | (none, bloom2) => some ⟨XDP_ABORTED, pkt, bloom2, none⟩
        | (some counter_jhash, bloom2) =>
          if bloom2 counter_fasthash > env.threshold ∧ bloom2 counter_jhash > env.threshold then
            some ⟨XDP_DROP, pkt, bloom2, none⟩
          else xdp_forward env bloom2 pkt eth info

/-! ## Definitions used in the statements -/

/-- Host-order value of the two frame bytes at `off` (the result of an in-bounds `load16`). -/
def val16 (be : Bool) (pkt : List Byte) (off : Nat) : Nat :=
  if be then rd pkt off * 256 + rd pkt (off + 1) else rd pkt off + rd pkt (off + 1) * 256

/-- Host-order value of the four frame bytes at `off` (the result of an in-bounds `load32`). -/
def val32 (be : Bool) (pkt : List Byte) (off : Nat) : Nat :=
  if be then rd pkt off * 16777216 + rd pkt (off + 1) * 65536 + rd pkt (off + 2) * 256 +
    rd pkt (off + 3)
  else rd pkt off + rd pkt (off + 1) * 256 + rd pkt (off + 2) * 65536 +
    rd pkt (off + 3) * 16777216

/-- Header length in bytes declared by the IPv4 header at offset 14: `ihl * 4`. -/
def ip_hlen (pkt : List Byte) : Nat := (rd pkt 14 % 16) * 4

/-- Header length in bytes declared by the TCP header at `off`: `doff * 4`. -/
def tcp_hlen (pkt : List Byte) (off : Nat) : Nat := (rd pkt (off + 12) / 16) * 4

/-- Content of `info` at the `goto forward` of a non-TCP/UDP packet: addresses and protocol
assigned, the other bytes as they were. -/
def l3_info (be : Bool) (info0 : flow_info) (pkt : List Byte) : flow_info :=
  { info0 with
    source_ip := val32 be pkt 26, dest_ip := val32 be pkt 30, protocol := rd pkt 23 }

/-- Content of `info` when the detector is reached: the five fields assigned, the padding
bytes as they were. -/
def l4_info (be : Bool) (info0 : flow_info) (pkt : List Byte) : flow_info :=
  { l3_info be info0 pkt with
    source_port := val16 be pkt (14 + ip_hlen pkt),
    dest_port := val16 be pkt (14 + ip_hlen pkt + 2) }

/-- Counting table with slot `i` incremented modulo `2 ^ 64`. -/
def bloom_inc (bloom : Nat → Nat) (i : Nat) : Nat → Nat :=
  fun j => if j = i then (bloom i + 1) % 2 ^ 64 else bloom j

/-- Counting table once both probes of the key `info` were incremented. -/
def bloom_probed (env : Env) (bloom : Nat → Nat) (info : flow_info) : Nat → Nat :=
  bloom_inc (bloom_inc bloom (h_fasthash env info)) (h_jhash env info)

/-- The test of lines 261-264 on the table `b`. -/
def both_exceed (env : Env) (b : Nat → Nat) (info : flow_info) : Prop :=
  env.threshold < b (h_fasthash env info) ∧ env.threshold < b (h_jhash env info)

instance (env : Env) (b : Nat → Nat) (info : flow_info) : Decidable (both_exceed env b info) := by
  unfold both_exceed; infer_instance

/-- Frame after the two `memcpy` of lines 308-309. -/
def mac_rewrite (pkt : List Byte) (dstMac srcMac : Fin 6 → Byte) : List Byte :=
  match memcpy6 pkt 6 srcMac with
  | some p1 => (memcpy6 p1 0 dstMac).getD p1
  | none => pkt

/-- Counting table after one invocation with initial `info` content `e.1` on frame `e.2`
(the table is left as it was should the invocation fault). -/
def bloom_after (env : Env) (bloom : Nat → Nat) (e : flow_info × List Byte) : Nat → Nat :=
  match xdp_hhd_v2 env e.1 bloom e.2 with
  | some r => r.bloom
  | none => bloom

/-- Counting table after a sequence of invocations, one per received frame. -/
def run (env : Env) (bloom : Nat → Nat) : List (flow_info × List Byte) → (Nat → Nat)
  | [] => bloom
  | e :: es => run env (bloom_after env bloom e) es

/-- Number of probes (0, 1 or 2) that the invocation on `e` makes at slot `s`. -/
def probes (env : Env) (e : flow_info × List Byte) (s : Nat) : Nat :=
  match xdp_parse env.bigEndian e.1 e.2 with
  | some (Parsed.hhd _ info) =>
    (if h_fasthash env info = s then 1 else 0) + (if h_jhash env info = s then 1 else 0)
  | _ => 0

/-- Number of packets of the trace that parsing hands to the detector with the key `info`. -/
def flow_count (env : Env) (info : flow_info) (tr : List (flow_info × List Byte)) : Nat :=
  tr.countP (fun e => decide (xdp_parse env.bigEndian e.1 e.2 = some (Parsed.hhd (some 0) info)))

/-- Increment that one packet of the key `info` adds to each of its slots: 1 when its two
table indices differ, 2 when both probes hit the same slot of the shared table. -/
def probe_weight (env : Env) (info : flow_info) : Nat :=
  if h_fasthash env info = h_jhash env info then 2 else 1

/-- The frame carries a well-formed IPv4 header: 14 Ethernet bytes with ethertype 0x0800, the
20 fixed header bytes, and a declared header length of at least 20 that fits the frame. -/
def valid_ipv4 (pkt : List Byte) : Prop :=
  34 ≤ pkt.length ∧ rd pkt 12 = 8 ∧ rd pkt 13 = 0 ∧ 20 ≤ ip_hlen pkt ∧
    14 + ip_hlen pkt ≤ pkt.length

instance (pkt : List Byte) : Decidable (valid_ipv4 pkt) := by
  unfold valid_ipv4; infer_instance

/-- The frame is well-formed IPv4 of protocol TCP with a well-formed TCP header. -/
def valid_tcp (pkt : List Byte) : Prop :=
  valid_ipv4 pkt ∧ rd pkt 23 = 6 ∧ 14 + ip_hlen pkt + 20 ≤ pkt.length ∧
    20 ≤ tcp_hlen pkt (14 + ip_hlen pkt) ∧ tcp_hlen pkt (14 + ip_hlen pkt) ≤ 60 ∧
    14 + ip_hlen pkt + tcp_hlen pkt (14 + ip_hlen pkt) ≤ pkt.length

instance (pkt : List Byte) : Decidable (valid_tcp pkt) := by
  unfold valid_tcp; infer_instance

/-- The frame is well-formed IPv4 of protocol UDP with a well-formed UDP header. -/
def valid_udp (pkt : List Byte) : Prop :=
  valid_ipv4 pkt ∧ rd pkt 23 = 17 ∧ 14 + ip_hlen pkt + 8 ≤ pkt.length ∧
    8 ≤ rd pkt (14 + ip_hlen pkt + 4) * 256 + rd pkt (14 + ip_hlen pkt + 5)

instance (pkt : List Byte) : Decidable (valid_udp pkt) := by
  unfold valid_udp; infer_instance

/-- The frame is well-formed IPv4 of a protocol other than TCP and UDP. -/
def valid_other (pkt : List Byte) : Prop :=
  valid_ipv4 pkt ∧ rd pkt 23 ≠ 6 ∧ rd pkt 23 ≠ 17

instance (pkt : List Byte) : Decidable (valid_other pkt) := by
  unfold valid_other; infer_instance

/-- The frame fails at some parse stage: Ethernet header truncated, ethertype neither ARP nor
IPv4, IPv4 header truncated or with a bad declared length, or, behind a well-formed IPv4
header, a TCP or UDP header that is truncated or declares a bad length. -/
def malformed (pkt : List Byte) : Prop :=
  pkt.length < 14 ∨
  (14 ≤ pkt.length ∧ ¬ (rd pkt 12 = 8 ∧ rd pkt 13 = 6) ∧ ¬ (rd pkt 12 = 8 ∧ rd pkt 13 = 0)) ∨
  (14 ≤ pkt.length ∧ rd pkt 12 = 8 ∧ rd pkt 13 = 0 ∧
    (pkt.length < 34 ∨ ip_hlen pkt < 20 ∨ pkt.length < 14 + ip_hlen pkt)) ∨
  (valid_ipv4 pkt ∧ rd pkt 23 = 6 ∧
    (pkt.length < 14 + ip_hlen pkt + 20 ∨ tcp_hlen pkt (14 + ip_hlen pkt) < 20 ∨
      60 < tcp_hlen pkt (14 + ip_hlen pkt) ∨
      pkt.length < 14 + ip_hlen pkt + tcp_hlen pkt (14 + ip_hlen pkt))) ∨
  (valid_ipv4 pkt ∧ rd pkt 23 = 17 ∧
    (pkt.length < 14 + ip_hlen pkt + 8 ∨
      rd pkt (14 + ip_hlen pkt + 4) * 256 + rd pkt (14 + ip_hlen pkt + 5) < 8))

instance (pkt : List Byte) : Decidable (malformed pkt) := by
  unfold malformed; infer_instance

/-! ## Concrete frames and configurations -/

/-- A 54-byte TCP segment 10.0.0.1:0x1234 -> 10.0.0.2:80 with 20-byte IPv4 and TCP headers. -/
def frameTcp : List Byte :=
  [1, 2, 3, 4, 5, 6, 7, 8, 9, 10, 11, 12, 0x08, 0x00,
   0x45, 0, 0, 40, 0, 0, 0, 0, 64, 6, 0, 0, 10, 0, 0, 1, 10, 0, 0, 2,
   0x12, 0x34, 0, 80, 0, 0, 0, 0, 0, 0, 0, 0, 0x50, 0, 0, 0, 0, 0, 0, 0]

/-- A 42-byte ICMP packet 10.0.0.1 -> 10.0.0.2 (neither TCP nor UDP). -/
def frameIcmp : List Byte :=
  [1, 2, 3, 4, 5, 6, 7, 8, 9, 10, 11, 12, 0x08, 0x00,
   0x45, 0, 0, 28, 0, 0, 0, 0, 64, 1, 0, 0, 10, 0, 0, 1, 10, 0, 0, 2,
   8, 0, 0, 0, 0, 0, 0, 0]

/-- An all-zero initial content of the automatic variable `info`. -/
def stack0 : flow_info := ⟨0, 0, 0, 0, 0, 0, 0, 0⟩

/-- The key of `frameTcp` on a little-endian host with padding residue zero. -/
def keyTcp : flow_info := ⟨0x0100000a, 0x0200000a, 0x3412, 0x5000, 6, 0, 0, 0⟩

/-- The key fields assigned for `frameIcmp` on a little-endian host (ports left as in `stack0`). -/
def keyIcmp : flow_info := ⟨0x0100000a, 0x0200000a, 0, 0, 1, 0, 0, 0⟩

/-- The all-zero counting table. -/
def bloom0 : Nat → Nat := fun _ => 0

/-- A route entry: egress port 2, destination MAC a0:a1:a2:a3:a4:a5. -/
def routeDemo : ipv4_lookup_val := ⟨2, fun i => ⟨i.val + 0xa0, by omega⟩⟩

/-- A source-MAC entry b0:b1:b2:b3:b4:b5. -/
def srcMacDemo : src_mac_val := ⟨fun i => ⟨i.val + 0xb0, by omega⟩⟩

/-- A little-endian configuration: threshold 10, byte-sum stand-ins for the two hash
primitives, one route for 10.0.0.2 via port 2, and a redirect helper that succeeds. -/
def envDemo : Env where
  bigEndian := false
  threshold := 10
  fasthash32 := fun b _ s => (b.map Fin.val).sum + s
  jhash := fun b _ s => (b.map Fin.val).sum * 3 + s
  ipv4_lookup_map := fun k => if k = 0x0200000a then some routeDemo else none
  src_mac_map := fun k => if k = 2 then some srcMacDemo else none
  bpf_redirect_map := fun _ _ => XDP_REDIRECT

/-- The configuration `envDemo` with threshold 0 and an empty route table. -/
def envNoRoute : Env :=
  { envDemo with threshold := 0, ipv4_lookup_map := fun _ => none }

/-- The configuration `envDemo` with an empty route table. -/
def envNoRoute10 : Env :=
  { envDemo with ipv4_lookup_map := fun _ => none }

/-- An initial content of `info` that differs from `stack0` in the first padding byte only. -/
def stack1 : flow_info := ⟨0, 0, 0, 0, 0, 1, 0, 0⟩

/-- The key of `frameTcp` on a little-endian host when the padding residue is 1, 0, 0. -/
def keyTcp1 : flow_info := ⟨0x0100000a, 0x0200000a, 0x3412, 0x5000, 6, 1, 0, 0⟩

/-- The frame `frameTcp` with the TCP data offset lowered to 4 words (16 bytes). -/
def frameTcpBad : List Byte :=
  [1, 2, 3, 4, 5, 6, 7, 8, 9, 10, 11, 12, 0x08, 0x00,
   0x45, 0, 0, 40, 0, 0, 0, 0, 64, 6, 0, 0, 10, 0, 0, 1, 10, 0, 0, 2,
   0x12, 0x34, 0, 80, 0, 0, 0, 0, 0, 0, 0, 0, 0x40, 0, 0, 0, 0, 0, 0, 0]

/-- A UDP datagram 10.0.0.1:0x1234 -> 10.0.0.2:53 whose length field says 7. -/
def frameUdpBad : List Byte :=
  [1, 2, 3, 4, 5, 6, 7, 8, 9, 10, 11, 12, 0x08, 0x00,
   0x45, 0, 0, 28, 0, 0, 0, 0, 64, 17, 0, 0, 10, 0, 0, 1, 10, 0, 0, 2,
   0x12, 0x34, 0, 53, 0, 7, 0, 0]

/-- A 13-byte runt frame carrying the IPv4 ethertype's first byte only. -/
def frameShort : List Byte := [1, 2, 3, 4, 5, 6, 7, 8, 9, 10, 11, 12, 0x08]

/-- The configuration `envDemo` with both hash primitives constant, so that the two table
indices of every flow coincide (slot 0). -/
def envSameSlot : Env :=
  { envDemo with fasthash32 := fun _ _ _ => 0, jhash := fun _ _ _ => 0 }

/-- A TCP segment of another flow: `frameTcp` with source address 0.0.0.1. -/
def frameTcpB : List Byte :=
  [1, 2, 3, 4, 5, 6, 7, 8, 9, 10, 11, 12, 0x08, 0x00,
   0x45, 0, 0, 40, 0, 0, 0, 0, 64, 6, 0, 0, 0, 0, 0, 1, 10, 0, 0, 2,
   0x12, 0x34, 0, 80, 0, 0, 0, 0, 0, 0, 0, 0, 0x50, 0, 0, 0, 0, 0, 0, 0]

/-- The key of `frameTcpB` on a little-endian host with padding residue zero. -/
def keyTcpB : flow_info := ⟨0x01000000, 0x0200000a, 0x3412, 0x5000, 6, 0, 0, 0⟩

/-- A configuration with threshold 1 in which the first index of every flow is 0 and the
second index is the first key byte divided by 10: `frameTcp` probes slots (0, 1) and
`frameTcpB` probes slots (0, 0). -/
def envCollide : Env :=
  { envDemo with
    threshold := 1
    fasthash32 := fun _ _ _ => 0
    jhash := fun b _ _ => (b.headD 0).val / 10 }

/-- A configuration with threshold 1 in which the first index of every flow is 0 and the
second index is 1 plus the first key byte: `frameTcp` probes slots (0, 11) and
`frameTcpB` probes slots (0, 1). -/
def envCollideOk : Env :=
  { envDemo with
    threshold := 1
    fasthash32 := fun _ _ _ => 0
    jhash := fun b _ _ => (b.headD 0).val + 1 }

/-- A 42-byte ARP request frame (ethertype 0x0806). -/
def frameArp : List Byte :=
  [0xff, 0xff, 0xff, 0xff, 0xff, 0xff, 7, 8, 9, 10, 11, 12, 0x08, 0x06,
   0, 1, 8, 0, 6, 4, 0, 1, 7, 8, 9, 10, 11, 12, 10, 0, 0, 1,
   0, 0, 0, 0, 0, 0, 10, 0, 0, 2]

/-- A 14-byte frame with the IPv6 ethertype 0x86dd and no payload. -/
def frameIpv6 : List Byte :=
  [1, 2, 3, 4, 5, 6, 7, 8, 9, 10, 11, 12, 0x86, 0xdd]

/-- The configuration `envDemo` with a redirect helper that reports failure. -/
def envRedirectFail : Env :=
  { envDemo with bpf_redirect_map := fun _ _ => XDP_ABORTED }

/-- A route entry with the out-of-range egress port 5. -/
def routeBadPort : ipv4_lookup_val := ⟨5, fun i => ⟨i.val + 0xa0, by omega⟩⟩

/-- The configuration `envDemo` with the route of 10.0.0.2 pointing to egress port 5. -/
def envBadPort : Env :=
  { envDemo with
    ipv4_lookup_map := fun k => if k = 0x0200000a then some routeBadPort else none }

/-- A counting table whose slots all hold 7. -/
def bloom7 : Nat → Nat := fun _ => 7

/-- A counting table whose slots all hold the largest 64-bit value. -/
def bloomMax : Nat → Nat := fun _ => 2 ^ 64 - 1

/-- A TCP segment like `frameTcp` whose IPv4 header carries four option bytes (ihl = 6), so
that the TCP header starts at offset 38. -/
def frameTcpOpt : List Byte :=
  [1, 2, 3, 4, 5, 6, 7, 8, 9, 10, 11, 12, 0x08, 0x00,
   0x46, 0, 0, 44, 0, 0, 0, 0, 64, 6, 0, 0, 10, 0, 0, 1, 10, 0, 0, 2, 1, 1, 1, 1,
   0x12, 0x34, 0, 80, 0, 0, 0, 0, 0, 0, 0, 0, 0x50, 0, 0, 0, 0, 0, 0, 0]

/-! ## Basic facts about the memory primitives -/

/-- A frame byte is below 256. -/
theorem rd_lt (pkt : List Byte) (off : Nat) : rd pkt off < 256 := by
  unfold rd
  split
  · rename_i b _; exact b.isLt
  · decide

/-- An in-bounds one-byte read succeeds and yields the frame byte. -/
theorem load8_of_lt {pkt : List Byte} {off : Nat} (h : off < pkt.length) :
    load8 pkt off = some (rd pkt off) := by
  unfold load8 rd
  rw [List.getElem?_eq_getElem h]

/-- An in-bounds 16-bit read succeeds and yields the host-order value. -/
theorem load16_of_le {pkt : List Byte} {off : Nat} (be : Bool) (h : off + 2 ≤ pkt.length) :
    load16 be pkt off = some (val16 be pkt off) := by
  unfold load16 val16
  rw [load8_of_lt (by omega : off < pkt.length), load8_of_lt (by omega : off + 1 < pkt.length)]

/-- An in-bounds 32-bit read succeeds and yields the host-order value. -/
theorem load32_of_le {pkt : List Byte} {off : Nat} (be : Bool) (h : off + 4 ≤ pkt.length) :
    load32 be pkt off = some (val32 be pkt off) := by
  unfold load32 val32
  rw [load8_of_lt (by omega : off < pkt.length), load8_of_lt (by omega : off + 1 < pkt.length),
    load8_of_lt (by omega : off + 2 < pkt.length), load8_of_lt (by omega : off + 3 < pkt.length)]

/-- A host-order 16-bit value fits 16 bits. -/
theorem val16_lt (be : Bool) (pkt : List Byte) (off : Nat) : val16 be pkt off < 65536 := by
  have h0 := rd_lt pkt off
  have h1 := rd_lt pkt (off + 1)
  unfold val16
  split <;> omega

/-- On either host byte order, `bpf_ntohs` of a loaded 16-bit field is its big-endian value. -/
theorem ntohs_val16 (be : Bool) (pkt : List Byte) (off : Nat) :
    bpf_ntohs be (val16 be pkt off) = rd pkt off * 256 + rd pkt (off + 1) := by
  have h0 := rd_lt pkt off
  have h1 := rd_lt pkt (off + 1)
  unfold bpf_ntohs val16
  cases be <;> simp <;> omega

/-- On either host byte order, a loaded 16-bit field equals `bpf_htons` of a constant exactly
when its two bytes are the constant's high and low byte. -/
theorem val16_eq_htons (be : Bool) (pkt : List Byte) (off : Nat) (hi lo : Nat)
    (hhi : hi < 256) (hlo : lo < 256) :
    val16 be pkt off = bpf_htons be (hi * 256 + lo) ↔ rd pkt off = hi ∧ rd pkt (off + 1) = lo := by
  have h0 := rd_lt pkt off
  have h1 := rd_lt pkt (off + 1)
  have e1 : (hi * 256 + lo) % 256 = lo := by omega
  have e2 : (hi * 256 + lo) / 256 % 256 = hi := by omega
  have e3 : (hi * 256 + lo) % 65536 = hi * 256 + lo := by omega
  unfold bpf_htons val16
  rw [e1, e2, e3]
  cases be
  · simp only [Bool.false_eq_true, if_false]; omega
  · simp only [if_true]; omega

/-- The ARP ethertype constant split into bytes. -/
theorem htons_arp (be : Bool) : bpf_htons be 0x0806 = bpf_htons be (8 * 256 + 6) := rfl

/-- The IPv4 ethertype constant split into bytes. -/
theorem htons_ip (be : Bool) : bpf_htons be 0x0800 = bpf_htons be (8 * 256 + 0) := rfl

/-- An in-bounds `memcpy6` succeeds, keeps the length, writes the six source bytes and leaves
every other byte alone. -/
theorem memcpy6_spec (pkt : List Byte) (dst : Nat) (src : Fin 6 → Byte)
    (h : dst + 6 ≤ pkt.length) :
    ∃ p, memcpy6 pkt dst src = some p ∧ p.length = pkt.length ∧
      (∀ k : Fin 6, p[dst + k.val]? = some (src k)) ∧
      (∀ i, i < dst ∨ dst + 6 ≤ i → p[i]? = pkt[i]?) := by
  unfold memcpy6
  rw [if_pos h]
  refine ⟨_, rfl, by simp, ?_, ?_⟩
  · intro k
    fin_cases k <;> simp [List.getElem?_set] <;> omega
  · intro i hi
    simp only [List.getElem?_set]
    have e0 : ¬ dst = i := by omega
    have e1 : ¬ dst + 1 = i := by omega
    have e2 : ¬ dst + 2 = i := by omega
    have e3 : ¬ dst + 3 = i := by omega
    have e4 : ¬ dst + 4 = i := by omega
    have e5 : ¬ dst + 5 = i := by omega
    simp [e0, e1, e2, e3, e4, e5]

/-- The two copies of lines 308-309 on a frame of at least 12 bytes: length kept, bytes 0..5
the destination MAC, bytes 6..11 the source MAC, the rest untouched. -/
theorem mac_rewrite_spec (pkt : List Byte) (dstMac srcMac : Fin 6 → Byte)
    (hlen : 12 ≤ pkt.length) :
    (mac_rewrite pkt dstMac srcMac).length = pkt.length ∧
      (∀ k : Fin 6, (mac_rewrite pkt dstMac srcMac)[k.val]? = some (dstMac k)) ∧
      (∀ k : Fin 6, (mac_rewrite pkt dstMac srcMac)[6 + k.val]? = some (srcMac k)) ∧
      (∀ i, 12 ≤ i → (mac_rewrite pkt dstMac srcMac)[i]? = pkt[i]?) := by
  obtain ⟨p1, hp1, hl1, hin1, hout1⟩ := memcpy6_spec pkt 6 srcMac (by omega)
  obtain ⟨p2, hp2, hl2, hin2, hout2⟩ := memcpy6_spec p1 0 dstMac (by omega)
  have hmr : mac_rewrite pkt dstMac srcMac = p2 := by
    unfold mac_rewrite
    rw [hp1]
    dsimp only
    rw [hp2]
    rfl
  rw [hmr]
  refine ⟨by omega, ?_, ?_, ?_⟩
  · intro k
    have := hin2 k
    simpa using this
  · intro k
    rw [hout2 _ (by omega)]
    exact hin1 k
  · intro i hi
    rw [hout2 _ (by omega), hout1 _ (by omega)]

/-! ## Closed forms of the parsers and of the parsing half of the program -/

/-- Closed form of `parse_ethhdr`: it never faults. -/
theorem parse_ethhdr_eq (be : Bool) (pkt : List Byte) (data nh_off : Nat) :
    parse_ethhdr be pkt data nh_off =
      some (if data + 14 > pkt.length then ⟨-1, nh_off, none⟩
            else ⟨(val16 be pkt (data + 12) : Int), (nh_off + 14) % 65536, some data⟩) := by
  unfold parse_ethhdr sizeof_ethhdr
  dsimp only
  by_cases h1 : data + 14 > pkt.length
  · simp [h1]
  · rw [load16_of_le be (by omega : data + 12 + 2 ≤ pkt.length)]
    simp [h1]

/-- Closed form of `parse_iphdr`: it never faults. -/
theorem parse_iphdr_eq (pkt : List Byte) (data nh_off : Nat) :
    parse_iphdr pkt data nh_off =
      some (if data + 20 > pkt.length ∨ (rd pkt data % 16) * 4 < 20 ∨
              data + (rd pkt data % 16) * 4 > pkt.length
            then ⟨-1, nh_off, none⟩
            else ⟨(rd pkt (data + 9) : Int), (nh_off + (rd pkt data % 16) * 4) % 65536,
              some data⟩) := by
  unfold parse_iphdr sizeof_iphdr
  dsimp only
  by_cases h1 : data + 20 > pkt.length
  · simp [h1]
  · rw [load8_of_lt (by omega : data < pkt.length), load8_of_lt (by omega : data + 9 < pkt.length)]
    by_cases h2 : (rd pkt data % 16) * 4 < 20
    · simp [h1, h2]
    · by_cases h3 : data + (rd pkt data % 16) * 4 > pkt.length
      · simp [h1, h2, h3]
      · simp [h1, h2, h3]

/-- Closed form of `parse_tcphdr`: it never faults. -/
theorem parse_tcphdr_eq (pkt : List Byte) (data nh_off : Nat) :
    parse_tcphdr pkt data nh_off =
      some (if data + 20 > pkt.length ∨ (rd pkt (data + 12) / 16) * 4 < 20 ∨
              (rd pkt (data + 12) / 16) * 4 > 60 ∨
              data + (rd pkt (data + 12) / 16) * 4 > pkt.length
            then ⟨-1, nh_off, none⟩
            else ⟨(((rd pkt (data + 12) / 16) * 4 : Nat) : Int),
              (nh_off + (rd pkt (data + 12) / 16) * 4) % 65536, some data⟩) := by
  unfold parse_tcphdr sizeof_tcphdr
  dsimp only
  by_cases h1 : data + 20 > pkt.length
  · simp [h1]
  · rw [load8_of_lt (by omega : data + 12 < pkt.length)]
    by_cases h2 : (rd pkt (data + 12) / 16) * 4 < 20
    · simp [h1, h2]
    · by_cases h3 : (rd pkt (data + 12) / 16) * 4 > 60
      · simp [h1, h2, h3]
      · by_cases h4 : data + (rd pkt (data + 12) / 16) * 4 > pkt.length
        · simp [h1, h2, h3, h4]
        · simp [h1, h2, h3, h4]

/-- Closed form of `parse_udphdr`: it never faults. -/
theorem parse_udphdr_eq (be : Bool) (pkt : List Byte) (data nh_off : Nat) :
    parse_udphdr be pkt data nh_off =
      some (if data + 8 > pkt.length ∨ rd pkt (data + 4) * 256 + rd pkt (data + 5) < 8
            then ⟨-1, nh_off, none⟩
            else ⟨8, (nh_off + 8) % 65536, some data⟩) := by
  unfold parse_udphdr sizeof_udphdr
  dsimp only
  by_cases h1 : data + 8 > pkt.length
  · simp [h1]
  · rw [load16_of_le be (by omega : data + 4 + 2 ≤ pkt.length)]
    dsimp only
    rw [ntohs_val16]
    by_cases h2 : rd pkt (data + 4) * 256 + rd pkt (data + 4 + 1) < 8
    · simp [h1, h2]
    · simp [h1, h2]

/-- What a non-negative result of `parse_iphdr` at the cursor 14 says about the frame. -/
theorem parse_iphdr_ok (pkt : List Byte) (pi : ParseResult)
    (h : parse_iphdr pkt 14 14 = some pi) (hret : 0 ≤ pi.ret) :
    ¬ (pkt.length < 34 ∨ ip_hlen pkt < 20 ∨ pkt.length < 14 + ip_hlen pkt) ∧
      pi.ret = rd pkt 23 ∧ pi.nh_off = 14 + ip_hlen pkt := by
  rw [parse_iphdr_eq] at h
  have hb := rd_lt pkt 14
  by_cases hc : 14 + 20 > pkt.length ∨ (rd pkt 14 % 16) * 4 < 20 ∨
      14 + (rd pkt 14 % 16) * 4 > pkt.length
  · rw [if_pos hc] at h
    simp only [Option.some.injEq] at h
    subst h
    exact absurd (show (0 : Int) ≤ -1 from hret) (by decide)
  · rw [if_neg hc] at h
    simp only [Option.some.injEq] at h
    subst h
    unfold ip_hlen
    dsimp only
    refine ⟨by omega, rfl, by omega⟩

/-- Closed form of the parsing half of the program in terms of the frame bytes: it never
faults, and each exit is decided by the frame alone. -/
theorem xdp_parse_eq (be : Bool) (info0 : flow_info) (pkt : List Byte) :
    xdp_parse be info0 pkt = some (
      if pkt.length < 14 then Parsed.ret XDP_DROP
      else if rd pkt 12 = 8 ∧ rd pkt 13 = 6 then Parsed.ret XDP_PASS
      else if ¬ (rd pkt 12 = 8 ∧ rd pkt 13 = 0) then Parsed.ret XDP_DROP
      else if pkt.length < 34 ∨ ip_hlen pkt < 20 ∨ pkt.length < 14 + ip_hlen pkt then
        Parsed.ret XDP_DROP
      else if rd pkt 23 = 6 then
        if pkt.length < 14 + ip_hlen pkt + 20 ∨ tcp_hlen pkt (14 + ip_hlen pkt) < 20 ∨
            60 < tcp_hlen pkt (14 + ip_hlen pkt) ∨
            pkt.length < 14 + ip_hlen pkt + tcp_hlen pkt (14 + ip_hlen pkt) then
          Parsed.ret XDP_DROP
        else Parsed.hhd (some 0) (l4_info be info0 pkt)
      else if rd pkt 23 = 17 then
        if pkt.length < 14 + ip_hlen pkt + 8 ∨
            rd pkt (14 + ip_hlen pkt + 4) * 256 + rd pkt (14 + ip_hlen pkt + 5) < 8 then
          Parsed.ret XDP_DROP
        else Parsed.hhd (some 0) (l4_info be info0 pkt)
      else Parsed.fwd (some 0) (l3_info be info0 pkt)) := by
  unfold xdp_parse
  dsimp only
  rw [parse_ethhdr_eq]
  by_cases h1 : pkt.length < 14
  · simp [h1, sizeof_ethhdr]
  have h1a : ¬ (0 + 14 > pkt.length) := by omega
  have hty : (((val16 be pkt (0 + 12) : Nat) : Int) % 65536).toNat = val16 be pkt 12 := by
    have := val16_lt be pkt 12
    simp only [Nat.zero_add]
    omega
  have harp := val16_eq_htons be pkt 12 8 6 (by decide) (by decide)
  have hip := val16_eq_htons be pkt 12 8 0 (by decide) (by decide)
  simp only [h1a, if_false, hty, sizeof_ethhdr, ETH_P_ARP, ETH_P_IP, htons_arp, htons_ip,
    harp, hip, ne_eq, parse_iphdr_eq]
  by_cases h2 : rd pkt 12 = 8 ∧ rd pkt 13 = 6
  · simp [h2]
  by_cases h3 : rd pkt 12 = 8 ∧ rd pkt 13 = 0
  swap
  · simp [h2, h3]
  have e14 : (0 + 14) % 65536 = 14 := by decide
  simp only [h2, h3, if_false, not_true_eq_false, e14, Nat.zero_add]
  by_cases h4 : pkt.length < 34 ∨ ip_hlen pkt < 20 ∨ pkt.length < 14 + ip_hlen pkt
  · have h4a : 14 + 20 > pkt.length ∨ rd pkt 14 % 16 * 4 < 20 ∨
        14 + rd pkt 14 % 16 * 4 > pkt.length := by
      unfold ip_hlen at h4; omega
    simp [h4, h4a]
  have h4a : ¬ (14 + 20 > pkt.length ∨ rd pkt 14 % 16 * 4 < 20 ∨
        14 + rd pkt 14 % 16 * 4 > pkt.length) := by
    unfold ip_hlen at h4; omega
  have hb := rd_lt pkt 23
  have hh : ip_hlen pkt ≤ 60 := by unfold ip_hlen; omega
  have hoff : (14 + rd pkt 14 % 16 * 4) % 65536 = 14 + ip_hlen pkt := by
    unfold ip_hlen at *; omega
  have hneg : ¬ ((rd pkt 23 : Int) < 0) := by omega
  have hproto : ((rd pkt 23 : Int) % 256).toNat = rd pkt 23 := by omega
  simp only [h4, h4a, if_false, hoff, hneg, hproto]
  rw [load32_of_le be (by omega : 14 + 12 + 4 ≤ pkt.length),
    load32_of_le be (by omega : 14 + 16 + 4 ≤ pkt.length)]
  dsimp only
  have hc1 : ¬ (True ∧ (0 : Nat) = 6) := by decide
  simp only [hc1, if_false, and_self, not_true_eq_false]
  have e23 : 14 + 9 = 23 := rfl
  have e26 : 14 + 12 = 26 := rfl
  have e30 : 14 + 16 = 30 := rfl
  rw [e23, e26, e30]
  by_cases h5 : rd pkt 23 = 6
  · have h5a : ((rd pkt 23 : Nat) : Int) = IPPROTO_TCP := by rw [h5]; rfl
    rw [if_pos h5a, if_pos h5]
    simp only [parse_tcphdr_eq]
    by_cases h6 : pkt.length < 14 + ip_hlen pkt + 20 ∨ tcp_hlen pkt (14 + ip_hlen pkt) < 20 ∨
            60 < tcp_hlen pkt (14 + ip_hlen pkt) ∨
            pkt.length < 14 + ip_hlen pkt + tcp_hlen pkt (14 + ip_hlen pkt)
    · have h6a : 14 + ip_hlen pkt + 20 > pkt.length ∨
          rd pkt (14 + ip_hlen pkt + 12) / 16 * 4 < 20 ∨
          rd pkt (14 + ip_hlen pkt + 12) / 16 * 4 > 60 ∨
          14 + ip_hlen pkt + rd pkt (14 + ip_hlen pkt + 12) / 16 * 4 > pkt.length := by
        unfold tcp_hlen at h6; omega
      simp [h6, h6a]
    · have h6a : ¬ (14 + ip_hlen pkt + 20 > pkt.length ∨
          rd pkt (14 + ip_hlen pkt + 12) / 16 * 4 < 20 ∨
          rd pkt (14 + ip_hlen pkt + 12) / 16 * 4 > 60 ∨
          14 + ip_hlen pkt + rd pkt (14 + ip_hlen pkt + 12) / 16 * 4 > pkt.length) := by
        unfold tcp_hlen at h6; omega
      have hnn : ¬ (((rd pkt (14 + ip_hlen pkt + 12) / 16 * 4 : Nat) : Int) < 0) := by omega
      simp only [h6, h6a, if_false, hnn]
      rw [load16_of_le be (by omega : 14 + ip_hlen pkt + 2 ≤ pkt.length),
        load16_of_le be (by omega : 14 + ip_hlen pkt + 2 + 2 ≤ pkt.length)]
      simp only [l4_info, l3_info]
  have h5a : ¬ (((rd pkt 23 : Nat) : Int) = IPPROTO_TCP) := by
    unfold IPPROTO_TCP; omega
  rw [if_neg h5a, if_neg h5]
  by_cases h7 : rd pkt 23 = 17
  · have h7a : ((rd pkt 23 : Nat) : Int) = IPPROTO_UDP := by rw [h7]; rfl
    rw [if_pos h7a, if_pos h7]
    simp only [parse_udphdr_eq]
    by_cases h8 : pkt.length < 14 + ip_hlen pkt + 8 ∨
            rd pkt (14 + ip_hlen pkt + 4) * 256 + rd pkt (14 + ip_hlen pkt + 5) < 8
    · have h8a : 14 + ip_hlen pkt + 8 > pkt.length ∨
          rd pkt (14 + ip_hlen pkt + 4) * 256 + rd pkt (14 + ip_hlen pkt + 5) < 8 := by
        omega
      simp [h8, h8a]
    · have h8a : ¬ (14 + ip_hlen pkt + 8 > pkt.length ∨
          rd pkt (14 + ip_hlen pkt + 4) * 256 + rd pkt (14 + ip_hlen pkt + 5) < 8) := by
        omega
      have hnn : ¬ ((8 : Int) < 0) := by decide
      simp only [h8, h8a, if_false, hnn]
      rw [load16_of_le be (by omega : 14 + ip_hlen pkt + 2 ≤ pkt.length),
        load16_of_le be (by omega : 14 + ip_hlen pkt + 2 + 2 ≤ pkt.length)]
      simp only [l4_info, l3_info]
  have h7a : ¬ (((rd pkt 23 : Nat) : Int) = IPPROTO_UDP) := by
    unfold IPPROTO_UDP; omega
  rw [if_neg h7a, if_neg h7]
  simp only [l3_info]

/-- What parsing guarantees when it does not return: the frame has its 14 Ethernet bytes,
the Ethernet header pointer is the frame start and the key carries the destination address
read at offset 30. -/
theorem xdp_parse_cont (be : Bool) (info0 : flow_info) (pkt : List Byte) (eth : Option Nat)
    (info : flow_info)
    (h : xdp_parse be info0 pkt = some (Parsed.hhd eth info) ∨
      xdp_parse be info0 pkt = some (Parsed.fwd eth info)) :
    34 ≤ pkt.length ∧ eth = some 0 ∧ info.dest_ip = val32 be pkt 30 ∧
      info.source_ip = val32 be pkt 26 ∧ info.protocol = rd pkt 23 ∧
      info.pad0 = info0.pad0 ∧ info.pad1 = info0.pad1 ∧ info.pad2 = info0.pad2 := by
  rw [xdp_parse_eq] at h
  simp only [Option.some.injEq] at h
  split_ifs at h <;> simp [l4_info, l3_info] at h <;> first
    | (obtain ⟨h1, h2⟩ := h; subst h1; subst h2; simp; omega)

/-! ## Detector and forwarding step -/

/-- A lookup below `BLOOM_FILTER_ENTRIES` yields the slot and increments it. -/
theorem lookup_and_increment_counter_eq (bloom : Nat → Nat) (hash : Nat)
    (h : hash < BLOOM_FILTER_ENTRIES) :
    lookup_and_increment_counter bloom hash = (some hash, bloom_inc bloom hash) := by
  unfold lookup_and_increment_counter bloom_lookup bloom_inc
  rw [if_pos h]

/-- The first table index is in range. -/
theorem h_fasthash_lt (env : Env) (info : flow_info) : h_fasthash env info < BLOOM_FILTER_ENTRIES := by
  unfold h_fasthash
  exact Nat.mod_lt _ (by decide)

/-- The second table index is in range. -/
theorem h_jhash_lt (env : Env) (info : flow_info) : h_jhash env info < BLOOM_FILTER_ENTRIES := by
  unfold h_jhash
  exact Nat.mod_lt _ (by decide)

/-- The program on a frame that reaches the detector. -/
theorem xdp_hhd_v2_of_hhd (env : Env) (info0 : flow_info) (bloom : Nat → Nat) (pkt : List Byte)
    (eth : Option Nat) (info : flow_info)
    (hv : xdp_parse env.bigEndian info0 pkt = some (Parsed.hhd eth info)) :
    xdp_hhd_v2 env info0 bloom pkt =
      if both_exceed env (bloom_probed env bloom info) info then
        some ⟨XDP_DROP, pkt, bloom_probed env bloom info, none⟩
      else xdp_forward env (bloom_probed env bloom info) pkt eth info := by
  unfold xdp_hhd_v2
  rw [hv]
  have hf := h_fasthash_lt env info
  have hj := h_jhash_lt env info
  have hnot : ¬ (h_fasthash env info ≥ BLOOM_FILTER_ENTRIES ∨
      h_jhash env info ≥ BLOOM_FILTER_ENTRIES) := by omega
  simp only [hnot, if_false, lookup_and_increment_counter_eq _ _ hf,
    lookup_and_increment_counter_eq _ _ hj]
  rfl

/-- The program on a frame that jumps to the label `forward`. -/
theorem xdp_hhd_v2_of_fwd (env : Env) (info0 : flow_info) (bloom : Nat → Nat) (pkt : List Byte)
    (eth : Option Nat) (info : flow_info)
    (hv : xdp_parse env.bigEndian info0 pkt = some (Parsed.fwd eth info)) :
    xdp_hhd_v2 env info0 bloom pkt = xdp_forward env bloom pkt eth info := by
  unfold xdp_hhd_v2
  rw [hv]

/-- The program on a frame for which parsing returns. -/
theorem xdp_hhd_v2_of_ret (env : Env) (info0 : flow_info) (bloom : Nat → Nat) (pkt : List Byte)
    (a : Int) (hv : xdp_parse env.bigEndian info0 pkt = some (Parsed.ret a)) :
    xdp_hhd_v2 env info0 bloom pkt = some ⟨a, pkt, bloom, none⟩ := by
  unfold xdp_hhd_v2
  rw [hv]

/-- Closed form of the forwarding step on a frame of at least 12 bytes whose Ethernet header
is at the frame start: it never faults. -/
theorem xdp_forward_eq (env : Env) (bloom : Nat → Nat) (pkt : List Byte) (info : flow_info)
    (hlen : 12 ≤ pkt.length) :
    xdp_forward env bloom pkt (some 0) info = some (
      match env.ipv4_lookup_map info.dest_ip with
      | none => ⟨XDP_ABORTED, pkt, bloom, none⟩
      | some val =>
        if val.outPort.val < 1 ∨ val.outPort.val > 4 then ⟨XDP_ABORTED, pkt, bloom, none⟩
        else
          match env.src_mac_map val.outPort.val with
          | none => ⟨XDP_ABORTED, pkt, bloom, none⟩
          | some smv =>
            ⟨if env.bpf_redirect_map val.outPort.val 0 = XDP_REDIRECT then XDP_REDIRECT
              else XDP_ABORTED,
             mac_rewrite pkt val.dstMac smv.srcMac, bloom, some val.outPort.val⟩) := by
  unfold xdp_forward
  dsimp only
  cases hr : env.ipv4_lookup_map info.dest_ip with
  | none => rfl
  | some val =>
    dsimp only
    by_cases hp : val.outPort.val < 1 ∨ val.outPort.val > 4
    · rw [if_pos hp, if_pos hp]
    · rw [if_neg hp, if_neg hp]
      cases hs : env.src_mac_map val.outPort.val with
      | none => rfl
      | some smv =>
        dsimp only
        obtain ⟨p1, hp1, hl1, -, -⟩ := memcpy6_spec pkt 6 smv.srcMac (by omega)
        obtain ⟨p2, hp2, hl2, -, -⟩ := memcpy6_spec p1 0 val.dstMac (by omega)
        have hmr : mac_rewrite pkt val.dstMac smv.srcMac = p2 := by
          unfold mac_rewrite
          rw [hp1]
          dsimp only
          rw [hp2]
          rfl
        rw [show (0 : Nat) + 6 = 6 from rfl, hp1]
        dsimp only
        rw [hp2, hmr]
        dsimp only
        by_cases hq : env.bpf_redirect_map val.outPort.val 0 = XDP_REDIRECT
        · simp [hq]
        · simp [hq]

/-- The forwarding step returns, leaves the counting table alone and yields Abort or
Redirect. -/
theorem xdp_forward_action (env : Env) (bloom : Nat → Nat) (pkt : List Byte) (info : flow_info)
    (hlen : 12 ≤ pkt.length) :
    ∃ r, xdp_forward env bloom pkt (some 0) info = some r ∧ r.bloom = bloom ∧
      (r.action = XDP_ABORTED ∨ r.action = XDP_REDIRECT) := by
  rw [xdp_forward_eq env bloom pkt info hlen]
  refine ⟨_, rfl, ?_⟩
  cases env.ipv4_lookup_map info.dest_ip with
  | none => exact ⟨rfl, Or.inl rfl⟩
  | some val =>
    dsimp only
    by_cases hp : val.outPort.val < 1 ∨ val.outPort.val > 4
    · rw [if_pos hp]
      exact ⟨rfl, Or.inl rfl⟩
    · rw [if_neg hp]
      cases env.src_mac_map val.outPort.val with
      | none => exact ⟨rfl, Or.inl rfl⟩
      | some smv =>
        dsimp only
        refine ⟨rfl, ?_⟩
        by_cases hq : env.bpf_redirect_map val.outPort.val 0 = XDP_REDIRECT
        · rw [if_pos hq]
          exact Or.inr rfl
        · rw [if_neg hq]
          exact Or.inl rfl

/-- Result of an invocation that reaches the detector: it returns, the table carries the two
increments, and the action is Drop exactly when both probed counters exceed the threshold. -/
theorem xdp_hhd_v2_hhd_result (env : Env) (info0 : flow_info) (bloom : Nat → Nat)
    (pkt : List Byte) (eth : Option Nat) (info : flow_info)
    (hv : xdp_parse env.bigEndian info0 pkt = some (Parsed.hhd eth info)) :
    ∃ r, xdp_hhd_v2 env info0 bloom pkt = some r ∧
      r.bloom = bloom_inc (bloom_inc bloom (h_fasthash env info)) (h_jhash env info) ∧
      (r.action = XDP_DROP ↔
        env.threshold < r.bloom (h_fasthash env info) ∧
        env.threshold < r.bloom (h_jhash env info)) := by
  obtain ⟨hlen, heth, -⟩ := xdp_parse_cont env.bigEndian info0 pkt eth info (Or.inl hv)
  subst heth
  rw [xdp_hhd_v2_of_hhd env info0 bloom pkt _ info hv]
  by_cases hx : both_exceed env (bloom_probed env bloom info) info
  · rw [if_pos hx]
    exact ⟨_, rfl, rfl, fun _ => hx, fun _ => rfl⟩
  · rw [if_neg hx]
    obtain ⟨r, hr, hb, ha⟩ :=
      xdp_forward_action env (bloom_probed env bloom info) pkt info (by omega)
    refine ⟨r, hr, hb, fun hd => ?_, fun h => ?_⟩
    · rcases ha with ha | ha <;> rw [ha] at hd <;> exact absurd hd (by decide)
    · rw [hb] at h
      exact absurd h hx

/-! ## Counting table along a trace of invocations -/

/-- The table after one invocation: the two probes of the key for frames that reach the
detector, unchanged otherwise. -/
theorem bloom_after_eq (env : Env) (bloom : Nat → Nat) (e : flow_info × List Byte) :
    bloom_after env bloom e =
      match xdp_parse env.bigEndian e.1 e.2 with
      | some (Parsed.hhd _ info) => bloom_probed env bloom info
      | _ => bloom := by
  unfold bloom_after
  cases hp : xdp_parse env.bigEndian e.1 e.2 with
  | none =>
    have : xdp_hhd_v2 env e.1 bloom e.2 = none := by
      unfold xdp_hhd_v2; rw [hp]
    rw [this]
  | some p =>
    cases p with
    | ret a => rw [xdp_hhd_v2_of_ret env e.1 bloom e.2 a hp]
    | fwd eth info =>
      obtain ⟨hlen, heth, -⟩ := xdp_parse_cont env.bigEndian e.1 e.2 eth info (Or.inr hp)
      subst heth
      obtain ⟨r, hr, hb, -⟩ := xdp_forward_action env bloom e.2 info (by omega)
      rw [xdp_hhd_v2_of_fwd env e.1 bloom e.2 _ info hp, hr]
      exact hb
    | hhd eth info =>
      obtain ⟨hlen, heth, -⟩ := xdp_parse_cont env.bigEndian e.1 e.2 eth info (Or.inl hp)
      subst heth
      rw [xdp_hhd_v2_of_hhd env e.1 bloom e.2 _ info hp]
      by_cases hx : both_exceed env (bloom_probed env bloom info) info
      · rw [if_pos hx]
      · rw [if_neg hx]
        obtain ⟨r, hr, hb, -⟩ :=
          xdp_forward_action env (bloom_probed env bloom info) e.2 info (by omega)
        rw [hr]
        exact hb

/-- Value of a slot once both probes were incremented. -/
theorem bloom_probed_slot (env : Env) (bloom : Nat → Nat) (info : flow_info) (s : Nat)
    (hs : bloom s < 2 ^ 64) :
    bloom_probed env bloom info s =
      (bloom s + ((if h_fasthash env info = s then 1 else 0) +
        (if h_jhash env info = s then 1 else 0))) % 2 ^ 64 := by
  unfold bloom_probed bloom_inc
  by_cases h1 : h_fasthash env info = s <;> by_cases h2 : h_jhash env info = s
  · subst h1
    rw [h2]
    simp only [if_true]
    omega
  · subst h1
    have h2' : ¬ h_fasthash env info = h_jhash env info := fun h => h2 h.symm
    simp only [if_true, if_neg h2, if_neg h2']
  · subst h2
    have h1' : ¬ h_jhash env info = h_fasthash env info := fun h => h1 h.symm
    simp only [if_true, if_neg h1, if_neg h1']
  · have h1' : ¬ s = h_fasthash env info := fun h => h1 h.symm
    have h2' : ¬ s = h_jhash env info := fun h => h2 h.symm
    simp only [if_neg h1, if_neg h2, if_neg h1', if_neg h2']
    omega

/-- Value of a slot after one invocation. -/
theorem bloom_after_slot (env : Env) (bloom : Nat → Nat) (e : flow_info × List Byte) (s : Nat)
    (hs : bloom s < 2 ^ 64) :
    bloom_after env bloom e s = (bloom s + probes env e s) % 2 ^ 64 := by
  rw [bloom_after_eq]
  unfold probes
  cases hp : xdp_parse env.bigEndian e.1 e.2 with
  | none => dsimp only; omega
  | some p =>
    cases p with
    | ret a => dsimp only; omega
    | fwd eth info => dsimp only; omega
    | hhd eth info =>
      dsimp only
      exact bloom_probed_slot env bloom info s hs

/-- Value of a slot after a trace: the initial value plus the number of probes, modulo
`2 ^ 64`. -/
theorem run_slot (env : Env) (tr : List (flow_info × List Byte)) :
    ∀ (bloom : Nat → Nat), (∀ s, bloom s < 2 ^ 64) → ∀ s,
      run env bloom tr s = (bloom s + (tr.map (fun e => probes env e s)).sum) % 2 ^ 64 := by
  induction tr with
  | nil =>
    intro bloom hb s
    have := hb s
    simp only [run, List.map_nil, List.sum_nil, Nat.add_zero]
    omega
  | cons e es ih =>
    intro bloom hb s
    have hb' : ∀ t, bloom_after env bloom e t < 2 ^ 64 := by
      intro t
      rw [bloom_after_slot env bloom e t (hb t)]
      exact Nat.mod_lt _ (by decide)
    simp only [run, List.map_cons, List.sum_cons]
    rw [ih _ hb' s, bloom_after_slot env bloom e s (hb s)]
    omega

/-- Probes at a slot add up to the number of packets that probe it once. -/
theorem sum_probes_eq_count (env : Env) (s : Nat) (p : flow_info × List Byte → Bool)
    (tr : List (flow_info × List Byte))
    (h : ∀ e ∈ tr, probes env e s = if p e then 1 else 0) :
    (tr.map (fun e => probes env e s)).sum = tr.countP p := by
  induction tr with
  | nil => rfl
  | cons e es ih =>
    have he := h e (List.mem_cons_self e es)
    have hes := ih (fun x hx => h x (List.mem_cons_of_mem e hx))
    rw [List.map_cons, List.sum_cons, List.countP_cons, hes, he]
    omega

/-- Probes at a slot add up to the weight times the number of packets that probe it. -/
theorem sum_probes_eq_mul_count (env : Env) (s c : Nat) (p : flow_info × List Byte → Bool)
    (tr : List (flow_info × List Byte))
    (h : ∀ e ∈ tr, probes env e s = if p e then c else 0) :
    (tr.map (fun e => probes env e s)).sum = c * tr.countP p := by
  induction tr with
  | nil => rfl
  | cons e es ih =>
    have he := h e (List.mem_cons_self e es)
    have hes := ih (fun x hx => h x (List.mem_cons_of_mem e hx))
    rw [List.map_cons, List.sum_cons, List.countP_cons, hes, he]
    by_cases hp : p e = true
    · rw [if_pos hp, if_pos hp]
      rw [Nat.mul_add, Nat.mul_one, Nat.add_comm]
    · rw [if_neg hp, if_neg hp]
      rw [Nat.zero_add, Nat.add_zero]

/-- Number of probes that a packet of key `info` makes at either of its own slots. -/
theorem probes_own_slot (env : Env) (info : flow_info) (s : Nat)
    (hs : s = h_fasthash env info ∨ s = h_jhash env info) :
    (if h_fasthash env info = s then 1 else 0) + (if h_jhash env info = s then 1 else 0) =
      probe_weight env info := by
  unfold probe_weight
  by_cases hc : h_fasthash env info = h_jhash env info
  · rw [if_pos hc]
    rcases hs with hs | hs
    · rw [hs, if_pos rfl, if_pos hc.symm]
    · rw [hs, if_pos hc, if_pos rfl]
  · rw [if_neg hc]
    rcases hs with hs | hs
    · rw [hs, if_pos rfl, if_neg (fun h => hc h.symm)]
    · rw [hs, if_neg hc, if_pos rfl]

/-- The table and outcome of the packet that follows a trace started on the zero table. -/
theorem xdp_hhd_v2_after_trace (env : Env) (tr : List (flow_info × List Byte))
    (info0 : flow_info) (pkt : List Byte) (info : flow_info)
    (hv : xdp_parse env.bigEndian info0 pkt = some (Parsed.hhd (some 0) info)) :
    ∃ r, xdp_hhd_v2 env info0 (run env bloom0 tr) pkt = some r ∧
      (∀ s, r.bloom s = ((tr.map (fun e => probes env e s)).sum +
        ((if h_fasthash env info = s then 1 else 0) +
          (if h_jhash env info = s then 1 else 0))) % 2 ^ 64) ∧
      (r.action = XDP_DROP ↔
        env.threshold < r.bloom (h_fasthash env info) ∧
        env.threshold < r.bloom (h_jhash env info)) := by
  obtain ⟨r, hr, hb, hiff⟩ := xdp_hhd_v2_hhd_result env info0 (run env bloom0 tr) pkt _ info hv
  refine ⟨r, hr, ?_, hiff⟩
  intro s
  have hz : ∀ t, bloom0 t < 2 ^ 64 := fun _ => by unfold bloom0; decide
  have hrun := run_slot env tr bloom0 hz
  have hlt : run env bloom0 tr s < 2 ^ 64 := by
    rw [hrun s]
    exact Nat.mod_lt _ (by decide)
  have := bloom_probed_slot env (run env bloom0 tr) info s hlt
  unfold bloom_probed at this
  rw [hb, this, hrun s]
  unfold bloom0
  omega

/-! ## Detector decision (C1, C2) -/

/-- C1: for every frame that parsing hands to the detector (valid Ethernet/IPv4 with a valid
TCP or UDP header), every counting table and every threshold, the invocation returns a
result whose table has the two probed slots incremented, and the action is Drop if and only
if both counters read back after the two increments are strictly greater than the
threshold; otherwise the result is the one of the forwarding step (Abort or Redirect). -/
theorem detector_drop_iff (env : Env) (info0 : flow_info) (bloom : Nat → Nat)
    (pkt : List Byte) (eth : Option Nat) (info : flow_info)
    (hv : xdp_parse env.bigEndian info0 pkt = some (Parsed.hhd eth info)) :
    ∃ r, xdp_hhd_v2 env info0 bloom pkt = some r ∧
      r.bloom = bloom_inc (bloom_inc bloom (h_fasthash env info)) (h_jhash env info) ∧
      (r.action = XDP_DROP ↔
        env.threshold < r.bloom (h_fasthash env info) ∧
        env.threshold < r.bloom (h_jhash env info)) ∧
      (¬ (env.threshold < r.bloom (h_fasthash env info) ∧
          env.threshold < r.bloom (h_jhash env info)) →
        xdp_forward env r.bloom pkt eth info = some r ∧
        (r.action = XDP_ABORTED ∨ r.action = XDP_REDIRECT)) := by
  obtain ⟨hlen, heth, -⟩ := xdp_parse_cont env.bigEndian info0 pkt eth info (Or.inl hv)
  rw [xdp_hhd_v2_of_hhd env info0 bloom pkt eth info hv]
  by_cases hx : both_exceed env (bloom_probed env bloom info) info
  · rw [if_pos hx]
    exact ⟨_, rfl, rfl, ⟨fun _ => hx, fun _ => rfl⟩, fun hn => absurd hx hn⟩
  · rw [if_neg hx]
    subst heth
    obtain ⟨r, hr, hb, ha⟩ :=
      xdp_forward_action env (bloom_probed env bloom info) pkt info (by omega)
    refine ⟨r, hr, hb, ⟨?_, ?_⟩, ?_⟩
    · intro hd
      rcases ha with ha | ha <;> rw [ha] at hd <;> exact absurd hd (by decide)
    · intro h
      rw [hb] at h
      exact absurd h hx
    · intro _
      rw [hb]
      exact ⟨hr, ha⟩

/-- The statement of C1 at `frameTcp` under `envDemo`, starting from the zero table. -/
theorem detector_drop_iff_witness :
    xdp_parse envDemo.bigEndian stack0 frameTcp = some (Parsed.hhd (some 0) keyTcp) ∧
    ∃ r, xdp_hhd_v2 envDemo stack0 bloom0 frameTcp = some r ∧
      r.bloom = bloom_inc (bloom_inc bloom0 (h_fasthash envDemo keyTcp)) (h_jhash envDemo keyTcp) ∧
      (r.action = XDP_DROP ↔
        envDemo.threshold < r.bloom (h_fasthash envDemo keyTcp) ∧
        envDemo.threshold < r.bloom (h_jhash envDemo keyTcp)) ∧
      (¬ (envDemo.threshold < r.bloom (h_fasthash envDemo keyTcp) ∧
          envDemo.threshold < r.bloom (h_jhash envDemo keyTcp)) →
        xdp_forward envDemo r.bloom frameTcp (some 0) keyTcp = some r ∧
        (r.action = XDP_ABORTED ∨ r.action = XDP_REDIRECT)) :=
  ⟨by decide, detector_drop_iff envDemo stack0 bloom0 frameTcp (some 0) keyTcp (by decide)⟩

/-- C2 as stated fails for hash functions that send a flow to one slot with both probes:
with threshold 10, both hashes constant and the all-zero table, each packet of the flow of
`frameTcp` adds 2 to slot 0, so after five packets the sixth reads 12 and is dropped,
although 6 is at most 10. -/
theorem heavy_hitter_same_slot_drops_early :
    xdp_parse envSameSlot.bigEndian stack0 frameTcp = some (Parsed.hhd (some 0) keyTcp) ∧
    envSameSlot.threshold = 10 ∧
    (xdp_hhd_v2 envSameSlot stack0
      (run envSameSlot bloom0 (List.replicate 5 (stack0, frameTcp))) frameTcp).map
        XdpResult.action = some XDP_DROP ∧
    (xdp_hhd_v2 envSameSlot stack0
      (run envSameSlot bloom0 (List.replicate 5 (stack0, frameTcp))) frameTcp).map
        (fun r => r.bloom 0) = some 12 := by
  decide

/-- C2 (amended): let a flow be the packets that parsing hands to the detector with one key,
and let c be 1 when the two table indices of the key differ and 2 when they coincide.
Starting from the all-zero table, after any trace made of packets of the flow and of
packets that probe neither of its slots, the next packet of the flow, the n-th one with
c * n below 2 ^ 64, leaves both counters at exactly c * n and is dropped if and only if
c * n exceeds the threshold.  For distinct indices: not dropped for n up to T, dropped from
T + 1 on, both counters being n. -/
theorem heavy_hitter_scenario (env : Env) (tr : List (flow_info × List Byte))
    (info0 : flow_info) (pkt : List Byte) (info : flow_info)
    (hv : xdp_parse env.bigEndian info0 pkt = some (Parsed.hhd (some 0) info))
    (htr : ∀ e ∈ tr,
      xdp_parse env.bigEndian e.1 e.2 = some (Parsed.hhd (some 0) info) ∨
      (probes env e (h_fasthash env info) = 0 ∧ probes env e (h_jhash env info) = 0))
    (hn : probe_weight env info * (flow_count env info tr + 1) < 2 ^ 64) :
    ∃ r, xdp_hhd_v2 env info0 (run env bloom0 tr) pkt = some r ∧
      r.bloom (h_fasthash env info) = probe_weight env info * (flow_count env info tr + 1) ∧
      r.bloom (h_jhash env info) = probe_weight env info * (flow_count env info tr + 1) ∧
      (r.action = XDP_DROP ↔
        env.threshold < probe_weight env info * (flow_count env info tr + 1)) ∧
      (h_fasthash env info ≠ h_jhash env info →
        r.bloom (h_fasthash env info) = flow_count env info tr + 1 ∧
        r.bloom (h_jhash env info) = flow_count env info tr + 1 ∧
        (r.action = XDP_DROP ↔ env.threshold < flow_count env info tr + 1)) := by
  obtain ⟨r, hr, hb, hiff⟩ := xdp_hhd_v2_after_trace env tr info0 pkt info hv
  have hsum : ∀ s, s = h_fasthash env info ∨ s = h_jhash env info →
      (tr.map (fun e => probes env e s)).sum =
        probe_weight env info * flow_count env info tr := by
    intro s hs
    unfold flow_count
    apply sum_probes_eq_mul_count
    intro e he
    by_cases hin : xdp_parse env.bigEndian e.1 e.2 = some (Parsed.hhd (some 0) info)
    · have hd : decide (xdp_parse env.bigEndian e.1 e.2 = some (Parsed.hhd (some 0) info))
          = true := decide_eq_true hin
      rw [hd, if_pos rfl]
      unfold probes
      rw [hin]
      exact probes_own_slot env info s hs
    · have hd : decide (xdp_parse env.bigEndian e.1 e.2 = some (Parsed.hhd (some 0) info))
          = false := decide_eq_false hin
      rw [hd, if_neg (by decide)]
      rcases htr e he with h | ⟨h1, h2⟩
      · exact absurd h hin
      · rcases hs with hs | hs
        · rw [hs]; exact h1
        · rw [hs]; exact h2
  have hval : ∀ s, s = h_fasthash env info ∨ s = h_jhash env info →
      r.bloom s = probe_weight env info * (flow_count env info tr + 1) := by
    intro s hs
    rw [hb s, hsum s hs, probes_own_slot env info s hs, Nat.mul_add, Nat.mul_one]
    exact Nat.mod_eq_of_lt (by rw [Nat.mul_add, Nat.mul_one] at hn; exact hn)
  have hf := hval _ (Or.inl rfl)
  have hj := hval _ (Or.inr rfl)
  have hdrop : r.action = XDP_DROP ↔
      env.threshold < probe_weight env info * (flow_count env info tr + 1) := by
    rw [hiff, hf, hj]
    exact ⟨fun h => h.1, fun h => ⟨h, h⟩⟩
  refine ⟨r, hr, hf, hj, hdrop, ?_⟩
  intro hne
  have hw : probe_weight env info = 1 := by
    unfold probe_weight
    rw [if_neg hne]
  rw [hw, Nat.one_mul] at hf hj hdrop
  exact ⟨hf, hj, hdrop⟩

/-- The scenario of C2 with threshold 10: after ten packets of `frameTcp` the eleventh reads
11 in both slots. -/
theorem heavy_hitter_scenario_witness :
    xdp_parse envDemo.bigEndian stack0 frameTcp = some (Parsed.hhd (some 0) keyTcp) ∧
    h_fasthash envDemo keyTcp ≠ h_jhash envDemo keyTcp ∧
    envDemo.threshold = 10 ∧
    flow_count envDemo keyTcp (List.replicate 10 (stack0, frameTcp)) + 1 = 11 ∧
    probe_weight envDemo keyTcp = 1 ∧
    ∃ r, xdp_hhd_v2 envDemo stack0
        (run envDemo bloom0 (List.replicate 10 (stack0, frameTcp))) frameTcp = some r ∧
      r.bloom (h_fasthash envDemo keyTcp) =
        probe_weight envDemo keyTcp *
          (flow_count envDemo keyTcp (List.replicate 10 (stack0, frameTcp)) + 1) ∧
      r.bloom (h_jhash envDemo keyTcp) =
        probe_weight envDemo keyTcp *
          (flow_count envDemo keyTcp (List.replicate 10 (stack0, frameTcp)) + 1) ∧
      (r.action = XDP_DROP ↔
        envDemo.threshold < probe_weight envDemo keyTcp *
          (flow_count envDemo keyTcp (List.replicate 10 (stack0, frameTcp)) + 1)) ∧
      (h_fasthash envDemo keyTcp ≠ h_jhash envDemo keyTcp →
        r.bloom (h_fasthash envDemo keyTcp) =
          flow_count envDemo keyTcp (List.replicate 10 (stack0, frameTcp)) + 1 ∧
        r.bloom (h_jhash envDemo keyTcp) =
          flow_count envDemo keyTcp (List.replicate 10 (stack0, frameTcp)) + 1 ∧
        (r.action = XDP_DROP ↔
          envDemo.threshold <
            flow_count envDemo keyTcp (List.replicate 10 (stack0, frameTcp)) + 1)) :=
  ⟨by decide, by decide, rfl, by decide, by decide,
    heavy_hitter_scenario envDemo (List.replicate 10 (stack0, frameTcp)) stack0 frameTcp keyTcp
      (by decide)
      (fun e he => Or.inl (by rw [List.eq_of_mem_replicate he]; decide))
      (by decide)⟩

/-! ## Forwarding (C3, C4) -/

/-- C3 as stated fails: with threshold 0 and an empty route table the valid TCP frame
`frameTcp`, whose destination address has no route entry, is dropped by the detector
(both counters read 1 > 0) and the outcome is Drop, not Abort. -/
theorem route_miss_heavy_hitter_dropped :
    xdp_parse envNoRoute.bigEndian stack0 frameTcp = some (Parsed.hhd (some 0) keyTcp) ∧
    envNoRoute.ipv4_lookup_map (val32 envNoRoute.bigEndian frameTcp 30) = none ∧
    (xdp_hhd_v2 envNoRoute stack0 bloom0 frameTcp).map XdpResult.action = some XDP_DROP ∧
    XDP_DROP ≠ XDP_ABORTED :=
  ⟨by decide, rfl, by decide, by decide⟩

/-- C3 (amended): for every frame whose destination address (bytes 30..33) has no route
entry, a non-TCP/UDP IPv4 packet yields Abort with frame and table untouched, and a valid
TCP/UDP packet yields Abort unless both probed counters exceed the threshold, in which case
the detector has already returned Drop; the table carries the two increments either way. -/
theorem route_miss_abort_unless_dropped (env : Env) (info0 : flow_info) (bloom : Nat → Nat)
    (pkt : List Byte) (eth : Option Nat) (info : flow_info)
    (hmiss : env.ipv4_lookup_map (val32 env.bigEndian pkt 30) = none) :
    (xdp_parse env.bigEndian info0 pkt = some (Parsed.fwd eth info) →
      xdp_hhd_v2 env info0 bloom pkt = some ⟨XDP_ABORTED, pkt, bloom, none⟩) ∧
    (xdp_parse env.bigEndian info0 pkt = some (Parsed.hhd eth info) →
      xdp_hhd_v2 env info0 bloom pkt =
        some ⟨if both_exceed env (bloom_probed env bloom info) info then XDP_DROP
              else XDP_ABORTED, pkt, bloom_probed env bloom info, none⟩) := by
  constructor
  · intro hv
    obtain ⟨hlen, heth, hd, -⟩ := xdp_parse_cont env.bigEndian info0 pkt eth info (Or.inr hv)
    subst heth
    rw [xdp_hhd_v2_of_fwd env info0 bloom pkt _ info hv, xdp_forward_eq env bloom pkt info (by omega),
      hd, hmiss]
  · intro hv
    obtain ⟨hlen, heth, hd, -⟩ := xdp_parse_cont env.bigEndian info0 pkt eth info (Or.inl hv)
    subst heth
    rw [xdp_hhd_v2_of_hhd env info0 bloom pkt _ info hv]
    by_cases hx : both_exceed env (bloom_probed env bloom info) info
    · rw [if_pos hx, if_pos hx]
    · rw [if_neg hx, if_neg hx, xdp_forward_eq env _ pkt info (by omega), hd, hmiss]

/-- The amended C3 at `frameIcmp` and at `frameTcp` with an empty route table. -/
theorem route_miss_abort_unless_dropped_witness :
    envNoRoute10.ipv4_lookup_map (val32 envNoRoute10.bigEndian frameIcmp 30) = none ∧
    xdp_parse envNoRoute10.bigEndian stack0 frameIcmp = some (Parsed.fwd (some 0) keyIcmp) ∧
    xdp_hhd_v2 envNoRoute10 stack0 bloom0 frameIcmp =
      some ⟨XDP_ABORTED, frameIcmp, bloom0, none⟩ ∧
    envNoRoute10.ipv4_lookup_map (val32 envNoRoute10.bigEndian frameTcp 30) = none ∧
    xdp_parse envNoRoute10.bigEndian stack0 frameTcp = some (Parsed.hhd (some 0) keyTcp) ∧
    xdp_hhd_v2 envNoRoute10 stack0 bloom0 frameTcp =
      some ⟨if both_exceed envNoRoute10 (bloom_probed envNoRoute10 bloom0 keyTcp) keyTcp
            then XDP_DROP else XDP_ABORTED, frameTcp,
        bloom_probed envNoRoute10 bloom0 keyTcp, none⟩ :=
  ⟨rfl, by decide,
    (route_miss_abort_unless_dropped envNoRoute10 stack0 bloom0 frameIcmp (some 0) keyIcmp
      rfl).1 (by decide),
    rfl, by decide,
    (route_miss_abort_unless_dropped envNoRoute10 stack0 bloom0 frameTcp (some 0) keyTcp
      rfl).2 (by decide)⟩

/-- C4: for every admitted frame (non-TCP/UDP IPv4, or TCP/UDP for which the two probed
counters do not both exceed the threshold) whose destination address (bytes 30..33) has a
route entry with egress port in 1..4, a source-MAC entry for that port and a succeeding
redirect, the outcome is Redirect with the redirect issued for that port, the frame keeps
its length, bytes 0..5 are the route entry's destination MAC, bytes 6..11 the source-MAC
entry, and every byte at offset 12 or more is the input's. -/
theorem redirect_rewrites_only_macs (env : Env) (info0 : flow_info) (bloom : Nat → Nat)
    (pkt : List Byte) (eth : Option Nat) (info : flow_info) (val : ipv4_lookup_val)
    (smv : src_mac_val)
    (hadm : xdp_parse env.bigEndian info0 pkt = some (Parsed.fwd eth info) ∨
      (xdp_parse env.bigEndian info0 pkt = some (Parsed.hhd eth info) ∧
        ¬ both_exceed env (bloom_probed env bloom info) info))
    (hroute : env.ipv4_lookup_map (val32 env.bigEndian pkt 30) = some val)
    (hport : 1 ≤ val.outPort.val ∧ val.outPort.val ≤ 4)
    (hsrc : env.src_mac_map val.outPort.val = some smv)
    (hredir : env.bpf_redirect_map val.outPort.val 0 = XDP_REDIRECT) :
    ∃ r, xdp_hhd_v2 env info0 bloom pkt = some r ∧
      r.action = XDP_REDIRECT ∧ r.redirect = some val.outPort.val ∧
      r.pkt.length = pkt.length ∧
      (∀ k : Fin 6, r.pkt[k.val]? = some (val.dstMac k)) ∧
      (∀ k : Fin 6, r.pkt[6 + k.val]? = some (smv.srcMac k)) ∧
      (∀ i, 12 ≤ i → r.pkt[i]? = pkt[i]?) := by
  have hp : ¬ (val.outPort.val < 1 ∨ val.outPort.val > 4) := by omega
  have key : ∀ b : Nat → Nat, 12 ≤ pkt.length → info.dest_ip = val32 env.bigEndian pkt 30 →
      xdp_forward env b pkt (some 0) info =
        some ⟨XDP_REDIRECT, mac_rewrite pkt val.dstMac smv.srcMac, b, some val.outPort.val⟩ := by
    intro b hl hd
    rw [xdp_forward_eq env b pkt info hl, hd, hroute]
    dsimp only
    rw [if_neg hp, hsrc]
    dsimp only
    rw [if_pos hredir]
  rcases hadm with hv | ⟨hv, hx⟩
  · obtain ⟨hlen, heth, hd, -⟩ := xdp_parse_cont env.bigEndian info0 pkt eth info (Or.inr hv)
    subst heth
    rw [xdp_hhd_v2_of_fwd env info0 bloom pkt _ info hv, key bloom (by omega) hd]
    obtain ⟨m1, m2, m3, m4⟩ := mac_rewrite_spec pkt val.dstMac smv.srcMac (by omega)
    exact ⟨_, rfl, rfl, rfl, m1, m2, m3, m4⟩
  · obtain ⟨hlen, heth, hd, -⟩ := xdp_parse_cont env.bigEndian info0 pkt eth info (Or.inl hv)
    subst heth
    rw [xdp_hhd_v2_of_hhd env info0 bloom pkt _ info hv, if_neg hx, key _ (by omega) hd]
    obtain ⟨m1, m2, m3, m4⟩ := mac_rewrite_spec pkt val.dstMac smv.srcMac (by omega)
    exact ⟨_, rfl, rfl, rfl, m1, m2, m3, m4⟩

/-- The statement of C4 at `frameTcp` with the route of `envDemo` through egress port 2. -/
theorem redirect_rewrites_only_macs_witness :
    (xdp_parse envDemo.bigEndian stack0 frameTcp = some (Parsed.hhd (some 0) keyTcp) ∧
      ¬ both_exceed envDemo (bloom_probed envDemo bloom0 keyTcp) keyTcp) ∧
    envDemo.ipv4_lookup_map (val32 envDemo.bigEndian frameTcp 30) = some routeDemo ∧
    (1 ≤ routeDemo.outPort.val ∧ routeDemo.outPort.val ≤ 4) ∧
    routeDemo.outPort.val = 2 ∧
    envDemo.src_mac_map routeDemo.outPort.val = some srcMacDemo ∧
    envDemo.bpf_redirect_map routeDemo.outPort.val 0 = XDP_REDIRECT ∧
    ∃ r, xdp_hhd_v2 envDemo stack0 bloom0 frameTcp = some r ∧
      r.action = XDP_REDIRECT ∧ r.redirect = some routeDemo.outPort.val ∧
      r.pkt.length = frameTcp.length ∧
      (∀ k : Fin 6, r.pkt[k.val]? = some (routeDemo.dstMac k)) ∧
      (∀ k : Fin 6, r.pkt[6 + k.val]? = some (srcMacDemo.srcMac k)) ∧
      (∀ i, 12 ≤ i → r.pkt[i]? = frameTcp[i]?) :=
  ⟨by decide, rfl, by decide, by decide, rfl, by decide,
    redirect_rewrites_only_macs envDemo stack0 bloom0 frameTcp (some 0) keyTcp routeDemo
      srcMacDemo (Or.inr (by decide)) rfl (by decide) rfl (by decide)⟩

/-! ## Hashed region and hash collisions (C5, C6) -/

/-- C5 (the code departs from the claim): the region handed to both hash functions is the
16 bytes of `sizeof(struct flow_info)`, whose last three bytes are the padding that no
assignment writes; so the frame `frameTcp`, processed once with padding residue 0 and once
with residue 1, yields the same five key fields but different hashed byte sequences and,
for the byte-sum stand-in of `envDemo`, different first table indices. -/
theorem hashed_region_includes_padding :
    sizeof_flow_info = 16 ∧
    (∀ (be : Bool) (info : flow_info), (flow_info_bytes be info).length = 16 ∧
      (flow_info_bytes be info).drop 13 = [info.pad0, info.pad1, info.pad2]) ∧
    xdp_parse envDemo.bigEndian stack0 frameTcp = some (Parsed.hhd (some 0) keyTcp) ∧
    xdp_parse envDemo.bigEndian stack1 frameTcp = some (Parsed.hhd (some 0) keyTcp1) ∧
    (flow_info_bytes envDemo.bigEndian keyTcp).take 13 =
      (flow_info_bytes envDemo.bigEndian keyTcp1).take 13 ∧
    flow_info_bytes envDemo.bigEndian keyTcp ≠ flow_info_bytes envDemo.bigEndian keyTcp1 ∧
    h_fasthash envDemo keyTcp ≠ h_fasthash envDemo keyTcp1 := by
  refine ⟨rfl, ?_, by decide, by decide, by decide, by decide, by decide⟩
  intro be info
  cases be <;> exact ⟨rfl, rfl⟩

/-- C6 as stated fails when the second index of flow B equals its own first index: with
threshold 1, flow A (`frameTcp`, slots 0 and 1) and the distinct flow B (`frameTcpB`, slots
0 and 0) share the first index and differ in the second, yet after a single packet of A the
first packet of B reads 3 in slot 0 with both probes and is dropped. -/
theorem single_collision_can_drop :
    xdp_parse envCollide.bigEndian stack0 frameTcp = some (Parsed.hhd (some 0) keyTcp) ∧
    xdp_parse envCollide.bigEndian stack0 frameTcpB = some (Parsed.hhd (some 0) keyTcpB) ∧
    keyTcp ≠ keyTcpB ∧
    h_fasthash envCollide keyTcpB = h_fasthash envCollide keyTcp ∧
    h_jhash envCollide keyTcpB ≠ h_jhash envCollide keyTcp ∧
    1 ≤ envCollide.threshold ∧
    (xdp_hhd_v2 envCollide stack0 (run envCollide bloom0 [(stack0, frameTcp)]) frameTcpB).map
      XdpResult.action = some XDP_DROP := by
  decide

/-- C6 (amended): let flows A and B be the packets handed to the detector with keys `infoA`
and `infoB`, where B has A's first index, a second index different from A's second index
and also different from its own first index.  Starting from the all-zero table, after any
interleaving of packets of A and of B, the next packet of B, the k-th one with k below
2 ^ 64, reads exactly k in its second slot, so it is dropped only if k exceeds the
threshold; with a threshold of at least 1 the first packet of B is never dropped. -/
theorem single_collision_suppressed (env : Env) (tr : List (flow_info × List Byte))
    (info0 : flow_info) (pkt : List Byte) (infoA infoB : flow_info)
    (hB : xdp_parse env.bigEndian info0 pkt = some (Parsed.hhd (some 0) infoB))
    (hcol : h_fasthash env infoB = h_fasthash env infoA)
    (hdiff : h_jhash env infoB ≠ h_jhash env infoA)
    (hown : h_jhash env infoB ≠ h_fasthash env infoB)
    (htr : ∀ e ∈ tr,
      xdp_parse env.bigEndian e.1 e.2 = some (Parsed.hhd (some 0) infoA) ∨
      xdp_parse env.bigEndian e.1 e.2 = some (Parsed.hhd (some 0) infoB))
    (hk : flow_count env infoB tr + 1 < 2 ^ 64) :
    ∃ r, xdp_hhd_v2 env info0 (run env bloom0 tr) pkt = some r ∧
      r.bloom (h_jhash env infoB) = flow_count env infoB tr + 1 ∧
      (r.action = XDP_DROP → env.threshold < flow_count env infoB tr + 1) ∧
      (1 ≤ env.threshold → flow_count env infoB tr = 0 → r.action ≠ XDP_DROP) := by
  obtain ⟨r, hr, hb, hiff⟩ := xdp_hhd_v2_after_trace env tr info0 pkt infoB hB
  have hsum : (tr.map (fun e => probes env e (h_jhash env infoB))).sum =
      flow_count env infoB tr := by
    unfold flow_count
    apply sum_probes_eq_count
    intro e he
    by_cases hin : xdp_parse env.bigEndian e.1 e.2 = some (Parsed.hhd (some 0) infoB)
    · have hd : decide (xdp_parse env.bigEndian e.1 e.2 = some (Parsed.hhd (some 0) infoB))
          = true := decide_eq_true hin
      rw [hd, if_pos rfl]
      unfold probes
      rw [hin]
      dsimp only
      rw [if_neg (fun h => hown h.symm), if_pos rfl]
    · have hd : decide (xdp_parse env.bigEndian e.1 e.2 = some (Parsed.hhd (some 0) infoB))
          = false := decide_eq_false hin
      rw [hd, if_neg (by decide)]
      rcases htr e he with h | h
      · unfold probes
        rw [h]
        dsimp only
        rw [if_neg (fun h' => hown (by rw [hcol, h'])), if_neg (fun h' => hdiff h'.symm)]
      · exact absurd h hin
  have hj : r.bloom (h_jhash env infoB) = flow_count env infoB tr + 1 := by
    rw [hb, hsum, if_neg (fun h => hown h.symm), if_pos rfl]
    omega
  refine ⟨r, hr, hj, ?_, ?_⟩
  · intro hd
    have := (hiff.1 hd).2
    rw [hj] at this
    exact this
  · intro hT h0 hd
    have := (hiff.1 hd).2
    rw [hj, h0] at this
    omega

/-- The amended C6 with threshold 1: after five packets of flow A (`frameTcp`) the first
packet of flow B (`frameTcpB`) is the first one counted in its second slot. -/
theorem single_collision_suppressed_witness :
    xdp_parse envCollideOk.bigEndian stack0 frameTcpB = some (Parsed.hhd (some 0) keyTcpB) ∧
    h_fasthash envCollideOk keyTcpB = h_fasthash envCollideOk keyTcp ∧
    h_jhash envCollideOk keyTcpB ≠ h_jhash envCollideOk keyTcp ∧
    h_jhash envCollideOk keyTcpB ≠ h_fasthash envCollideOk keyTcpB ∧
    flow_count envCollideOk keyTcpB (List.replicate 5 (stack0, frameTcp)) = 0 ∧
    1 ≤ envCollideOk.threshold ∧
    ∃ r, xdp_hhd_v2 envCollideOk stack0
        (run envCollideOk bloom0 (List.replicate 5 (stack0, frameTcp))) frameTcpB = some r ∧
      r.bloom (h_jhash envCollideOk keyTcpB) =
        flow_count envCollideOk keyTcpB (List.replicate 5 (stack0, frameTcp)) + 1 ∧
      (r.action = XDP_DROP →
        envCollideOk.threshold <
          flow_count envCollideOk keyTcpB (List.replicate 5 (stack0, frameTcp)) + 1) ∧
      (1 ≤ envCollideOk.threshold →
        flow_count envCollideOk keyTcpB (List.replicate 5 (stack0, frameTcp)) = 0 →
        r.action ≠ XDP_DROP) :=
  ⟨by decide, by decide, by decide, by decide, by decide, by decide,
    single_collision_suppressed envCollideOk (List.replicate 5 (stack0, frameTcp)) stack0
      frameTcpB keyTcp keyTcpB (by decide) (by decide) (by decide) (by decide)
      (fun e he => Or.inl (by rw [List.eq_of_mem_replicate he]; decide))
      (by decide)⟩

/-! ## Parser contracts (C7, C8, C9, C10) -/

/-- C7: `parse_iphdr` always returns; the result is negative if and only if the declared
header length `ihl * 4` (`ihl` the low four bits of the first header byte) is below 20 or
above the number of bytes left from the header start to the end of the buffer, and then
the cursor is left alone; otherwise the result is the protocol byte at header offset 9
(a value in 0..255) and the 16-bit cursor is advanced by `ihl * 4`, exactly so whenever
the sum fits the 16-bit cursor. -/
theorem parse_iphdr_contract (pkt : List Byte) (data nh_off : Nat) :
    ∃ r, parse_iphdr pkt data nh_off = some r ∧
      (r.ret < 0 ↔ (rd pkt data % 16) * 4 < 20 ∨ pkt.length - data < (rd pkt data % 16) * 4) ∧
      (r.ret < 0 → r.nh_off = nh_off) ∧
      (0 ≤ r.ret → r.ret = rd pkt (data + 9) ∧ r.ret ≤ 255 ∧ r.hdr = some data ∧
        r.nh_off = (nh_off + (rd pkt data % 16) * 4) % 65536 ∧
        (nh_off + (rd pkt data % 16) * 4 < 65536 →
          r.nh_off = nh_off + (rd pkt data % 16) * 4)) := by
  rw [parse_iphdr_eq]
  have hb := rd_lt pkt (data + 9)
  by_cases h : data + 20 > pkt.length ∨ (rd pkt data % 16) * 4 < 20 ∨
      data + (rd pkt data % 16) * 4 > pkt.length
  · rw [if_pos h]
    refine ⟨_, rfl, ⟨fun _ => by omega, fun _ => ?_⟩, fun _ => rfl, fun h0 => ?_⟩
    · show (-1 : Int) < 0
      decide
    · exact absurd (show (0 : Int) ≤ -1 from h0) (by decide)
  · rw [if_neg h]
    refine ⟨_, rfl, ⟨fun h0 => ?_, fun h0 => ?_⟩, fun h0 => ?_, fun _ => ?_⟩
    · dsimp only at h0; omega
    · omega
    · dsimp only at h0; omega
    · dsimp only
      refine ⟨rfl, by omega, rfl, rfl, fun hlt => Nat.mod_eq_of_lt hlt⟩

/-- The statement of C7 at the IPv4 header of `frameTcp`. -/
theorem parse_iphdr_contract_witness :
    ∃ r, parse_iphdr frameTcp 14 14 = some r ∧
      (r.ret < 0 ↔ (rd frameTcp 14 % 16) * 4 < 20 ∨
        frameTcp.length - 14 < (rd frameTcp 14 % 16) * 4) ∧
      (r.ret < 0 → r.nh_off = 14) ∧
      (0 ≤ r.ret → r.ret = rd frameTcp (14 + 9) ∧ r.ret ≤ 255 ∧ r.hdr = some 14 ∧
        r.nh_off = (14 + (rd frameTcp 14 % 16) * 4) % 65536 ∧
        (14 + (rd frameTcp 14 % 16) * 4 < 65536 →
          r.nh_off = 14 + (rd frameTcp 14 % 16) * 4)) :=
  parse_iphdr_contract frameTcp 14 14

/-- C8: `parse_tcphdr` always returns; the result is negative if and only if the declared
header length `doff * 4` (`doff` the high four bits of header byte 12) is below 20, above
60 or above the number of bytes left, and then the cursor is left alone; otherwise the
result is `doff * 4`, a value in 20..60, and the 16-bit cursor is advanced by it, exactly
so whenever the sum fits the cursor.  In the program, an IPv4 frame of protocol TCP whose
TCP parse is negative yields Drop with frame and table untouched. -/
theorem parse_tcphdr_contract (env : Env) (info0 : flow_info) (bloom : Nat → Nat)
    (pkt : List Byte) (data nh_off : Nat) :
    (∃ r, parse_tcphdr pkt data nh_off = some r ∧
      (r.ret < 0 ↔ (rd pkt (data + 12) / 16) * 4 < 20 ∨ 60 < (rd pkt (data + 12) / 16) * 4 ∨
        pkt.length - data < (rd pkt (data + 12) / 16) * 4) ∧
      (r.ret < 0 → r.nh_off = nh_off) ∧
      (0 ≤ r.ret → r.ret = ((rd pkt (data + 12) / 16) * 4 : Nat) ∧ 20 ≤ r.ret ∧ r.ret ≤ 60 ∧
        r.hdr = some data ∧
        r.nh_off = (nh_off + (rd pkt (data + 12) / 16) * 4) % 65536 ∧
        (nh_off + (rd pkt (data + 12) / 16) * 4 < 65536 →
          r.nh_off = nh_off + (rd pkt (data + 12) / 16) * 4))) ∧
    (∀ pi pt : ParseResult, 14 ≤ pkt.length → rd pkt 12 = 8 ∧ rd pkt 13 = 0 →
      parse_iphdr pkt 14 14 = some pi → pi.ret = IPPROTO_TCP →
      parse_tcphdr pkt pi.nh_off pi.nh_off = some pt → pt.ret < 0 →
      xdp_hhd_v2 env info0 bloom pkt = some ⟨XDP_DROP, pkt, bloom, none⟩) := by
  constructor
  · rw [parse_tcphdr_eq]
    have hb := rd_lt pkt (data + 12)
    by_cases h : data + 20 > pkt.length ∨ (rd pkt (data + 12) / 16) * 4 < 20 ∨
        (rd pkt (data + 12) / 16) * 4 > 60 ∨
        data + (rd pkt (data + 12) / 16) * 4 > pkt.length
    · rw [if_pos h]
      refine ⟨_, rfl, ⟨fun _ => by omega, fun _ => ?_⟩, fun _ => rfl, fun h0 => ?_⟩
      · show (-1 : Int) < 0
        decide
      · exact absurd (show (0 : Int) ≤ -1 from h0) (by decide)
    · rw [if_neg h]
      refine ⟨_, rfl, ⟨fun h0 => ?_, fun h0 => ?_⟩, fun h0 => ?_, fun _ => ?_⟩
      · dsimp only at h0; omega
      · omega
      · dsimp only at h0; omega
      · dsimp only
        refine ⟨rfl, by omega, by omega, rfl, rfl, fun hlt => Nat.mod_eq_of_lt hlt⟩
  · intro pi pt hlen hty hip hproto htcp hneg
    obtain ⟨hok, hret, hoff⟩ := parse_iphdr_ok pkt pi hip (by rw [hproto]; decide)
    have h23 : rd pkt 23 = 6 := by
      rw [hproto] at hret
      unfold IPPROTO_TCP at hret
      omega
    rw [hoff, parse_tcphdr_eq] at htcp
    by_cases hc : 14 + ip_hlen pkt + 20 > pkt.length ∨
        (rd pkt (14 + ip_hlen pkt + 12) / 16) * 4 < 20 ∨
        (rd pkt (14 + ip_hlen pkt + 12) / 16) * 4 > 60 ∨
        14 + ip_hlen pkt + (rd pkt (14 + ip_hlen pkt + 12) / 16) * 4 > pkt.length
    · apply xdp_hhd_v2_of_ret
      rw [xdp_parse_eq]
      have h1 : ¬ pkt.length < 14 := by omega
      have h2 : ¬ (rd pkt 12 = 8 ∧ rd pkt 13 = 6) := by omega
      have h3 : ¬ ¬ (rd pkt 12 = 8 ∧ rd pkt 13 = 0) := by omega
      have h6 : pkt.length < 14 + ip_hlen pkt + 20 ∨ tcp_hlen pkt (14 + ip_hlen pkt) < 20 ∨
          60 < tcp_hlen pkt (14 + ip_hlen pkt) ∨
          pkt.length < 14 + ip_hlen pkt + tcp_hlen pkt (14 + ip_hlen pkt) := by
        unfold tcp_hlen; omega
      rw [if_neg h1, if_neg h2, if_neg h3, if_neg hok, if_pos h23, if_pos h6]
    · rw [if_neg hc] at htcp
      simp only [Option.some.injEq] at htcp
      subst htcp
      dsimp only at hneg
      omega

/-- The statement of C8 at `frameTcpBad`, whose TCP header declares 16 bytes. -/
theorem parse_tcphdr_contract_witness :
    14 ≤ frameTcpBad.length ∧ (rd frameTcpBad 12 = 8 ∧ rd frameTcpBad 13 = 0) ∧
    parse_iphdr frameTcpBad 14 14 = some ⟨6, 34, some 14⟩ ∧
    parse_tcphdr frameTcpBad 34 34 = some ⟨-1, 34, none⟩ ∧
    xdp_hhd_v2 envDemo stack0 bloom0 frameTcpBad = some ⟨XDP_DROP, frameTcpBad, bloom0, none⟩ :=
  ⟨by decide, by decide, by decide, by decide,
    (parse_tcphdr_contract envDemo stack0 bloom0 frameTcpBad 34 34).2 ⟨6, 34, some 14⟩
      ⟨-1, 34, none⟩ (by decide) (by decide) (by decide) (by decide) (by decide) (by decide)⟩

/-- C9: `parse_udphdr` always returns; the result is negative if and only if fewer than 8
bytes are left or the 16-bit length field, read in network byte order from header bytes 4
and 5, is below 8, and then the cursor is left alone; otherwise the result is 8 and the
16-bit cursor is advanced by 8, exactly so whenever the sum fits the cursor.  In the
program, an IPv4 frame of protocol UDP whose UDP parse is negative yields Drop with frame
and table untouched. -/
theorem parse_udphdr_contract (env : Env) (info0 : flow_info) (bloom : Nat → Nat)
    (pkt : List Byte) (data nh_off : Nat) :
    (∃ r, parse_udphdr env.bigEndian pkt data nh_off = some r ∧
      (r.ret < 0 ↔ pkt.length - data < 8 ∨ rd pkt (data + 4) * 256 + rd pkt (data + 5) < 8) ∧
      (r.ret < 0 → r.nh_off = nh_off) ∧
      (0 ≤ r.ret → r.ret = 8 ∧ r.hdr = some data ∧ r.nh_off = (nh_off + 8) % 65536 ∧
        (nh_off + 8 < 65536 → r.nh_off = nh_off + 8))) ∧
    (∀ pi pu : ParseResult, 14 ≤ pkt.length → rd pkt 12 = 8 ∧ rd pkt 13 = 0 →
      parse_iphdr pkt 14 14 = some pi → pi.ret = IPPROTO_UDP →
      parse_udphdr env.bigEndian pkt pi.nh_off pi.nh_off = some pu → pu.ret < 0 →
      xdp_hhd_v2 env info0 bloom pkt = some ⟨XDP_DROP, pkt, bloom, none⟩) := by
  constructor
  · rw [parse_udphdr_eq]
    by_cases h : data + 8 > pkt.length ∨ rd pkt (data + 4) * 256 + rd pkt (data + 5) < 8
    · rw [if_pos h]
      refine ⟨_, rfl, ⟨fun _ => by omega, fun _ => ?_⟩, fun _ => rfl, fun h0 => ?_⟩
      · show (-1 : Int) < 0
        decide
      · exact absurd (show (0 : Int) ≤ -1 from h0) (by decide)
    · rw [if_neg h]
      refine ⟨_, rfl, ⟨fun h0 => ?_, fun h0 => ?_⟩, fun h0 => ?_, fun _ => ?_⟩
      · exact absurd (show (8 : Int) < 0 from h0) (by decide)
      · omega
      · exact absurd (show (8 : Int) < 0 from h0) (by decide)
      · exact ⟨rfl, rfl, rfl, fun hlt => Nat.mod_eq_of_lt hlt⟩
  · intro pi pu hlen hty hip hproto hudp hneg
    obtain ⟨hok, hret, hoff⟩ := parse_iphdr_ok pkt pi hip (by rw [hproto]; decide)
    have h23 : rd pkt 23 = 17 := by
      rw [hproto] at hret
      unfold IPPROTO_UDP at hret
      omega
    rw [hoff, parse_udphdr_eq] at hudp
    by_cases hc : 14 + ip_hlen pkt + 8 > pkt.length ∨
        rd pkt (14 + ip_hlen pkt + 4) * 256 + rd pkt (14 + ip_hlen pkt + 5) < 8
    · apply xdp_hhd_v2_of_ret
      rw [xdp_parse_eq]
      have h1 : ¬ pkt.length < 14 := by omega
      have h2 : ¬ (rd pkt 12 = 8 ∧ rd pkt 13 = 6) := by omega
      have h3 : ¬ ¬ (rd pkt 12 = 8 ∧ rd pkt 13 = 0) := by omega
      have h5 : ¬ rd pkt 23 = 6 := by omega
      have h8 : pkt.length < 14 + ip_hlen pkt + 8 ∨
          rd pkt (14 + ip_hlen pkt + 4) * 256 + rd pkt (14 + ip_hlen pkt + 5) < 8 := by
        omega
      rw [if_neg h1, if_neg h2, if_neg h3, if_neg hok, if_neg h5, if_pos h23, if_pos h8]
    · rw [if_neg hc] at hudp
      simp only [Option.some.injEq] at hudp
      subst hudp
      exact absurd (show (8 : Int) < 0 from hneg) (by decide)

/-- The statement of C9 at `frameUdpBad`, whose UDP length field is 7. -/
theorem parse_udphdr_contract_witness :
    14 ≤ frameUdpBad.length ∧ (rd frameUdpBad 12 = 8 ∧ rd frameUdpBad 13 = 0) ∧
    parse_iphdr frameUdpBad 14 14 = some ⟨17, 34, some 14⟩ ∧
    parse_udphdr envDemo.bigEndian frameUdpBad 34 34 = some ⟨-1, 34, none⟩ ∧
    xdp_hhd_v2 envDemo stack0 bloom0 frameUdpBad = some ⟨XDP_DROP, frameUdpBad, bloom0, none⟩ :=
  ⟨by decide, by decide, by decide, by decide,
    (parse_udphdr_contract envDemo stack0 bloom0 frameUdpBad 34 34).2 ⟨17, 34, some 14⟩
      ⟨-1, 34, none⟩ (by decide) (by decide) (by decide) (by decide) (by decide) (by decide)⟩

/-- C10: for every frame shorter than 14 bytes (the empty frame included), `parse_ethhdr`
returns the error -1 without touching the cursor or the header pointer, and the program
returns Drop with frame and table untouched, whatever the configuration and the tables are;
the error truncated to the 16-bit ethertype variable is 0xffff, which is neither the ARP
nor the IPv4 ethertype constant. -/
theorem short_frame_dropped (env : Env) (info0 : flow_info) (bloom : Nat → Nat)
    (pkt : List Byte) (nh_off : Nat) (hshort : pkt.length < 14) :
    parse_ethhdr env.bigEndian pkt 0 nh_off = some ⟨-1, nh_off, none⟩ ∧
    xdp_hhd_v2 env info0 bloom pkt = some ⟨XDP_DROP, pkt, bloom, none⟩ ∧
    ((-1 : Int) % 65536).toNat = 65535 ∧
    65535 ≠ bpf_htons env.bigEndian ETH_P_ARP ∧ 65535 ≠ bpf_htons env.bigEndian ETH_P_IP := by
  refine ⟨?_, ?_, by decide, ?_, ?_⟩
  · rw [parse_ethhdr_eq, if_pos (by omega)]
  · apply xdp_hhd_v2_of_ret
    rw [xdp_parse_eq, if_pos hshort]
  · cases env.bigEndian <;> decide
  · cases env.bigEndian <;> decide

/-- The statement of C10 at the 13-byte frame `frameShort`. -/
theorem short_frame_dropped_witness :
    frameShort.length < 14 ∧
    parse_ethhdr envDemo.bigEndian frameShort 0 0 = some ⟨-1, 0, none⟩ ∧
    xdp_hhd_v2 envDemo stack0 bloom0 frameShort = some ⟨XDP_DROP, frameShort, bloom0, none⟩ ∧
    ((-1 : Int) % 65536).toNat = 65535 ∧
    65535 ≠ bpf_htons envDemo.bigEndian ETH_P_ARP ∧
    65535 ≠ bpf_htons envDemo.bigEndian ETH_P_IP :=
  ⟨by decide, short_frame_dropped envDemo stack0 bloom0 frameShort 0 (by decide)⟩

/-! ## Ethertype dispatch (C11, C12) -/

/-- C11: every frame of at least 14 bytes whose bytes 12 and 13 are 0x08 0x06 (ARP) yields
Pass, whatever follows the Ethernet header and whatever the configuration, the initial
content of `info` and the counting table are; the frame and the table are returned
unchanged and no redirect is issued. -/
theorem arp_frame_passes (env : Env) (info0 : flow_info) (bloom : Nat → Nat)
    (pkt : List Byte) (hlen : 14 ≤ pkt.length) (harp : rd pkt 12 = 8 ∧ rd pkt 13 = 6) :
    xdp_hhd_v2 env info0 bloom pkt = some ⟨XDP_PASS, pkt, bloom, none⟩ := by
  apply xdp_hhd_v2_of_ret
  rw [xdp_parse_eq, if_neg (by omega), if_pos harp]

/-- The statement of C11 at the ARP request `frameArp`. -/
theorem arp_frame_passes_witness :
    14 ≤ frameArp.length ∧ (rd frameArp 12 = 8 ∧ rd frameArp 13 = 6) ∧
    xdp_hhd_v2 envDemo stack0 bloom0 frameArp = some ⟨XDP_PASS, frameArp, bloom0, none⟩ :=
  ⟨by decide, by decide, arp_frame_passes envDemo stack0 bloom0 frameArp (by decide) (by decide)⟩

/-- C12: every frame of at least 14 bytes whose ethertype, read in network byte order from
bytes 12 and 13, is neither 0x0806 (ARP) nor 0x0800 (IPv4) yields Drop, whatever the other
bytes, the configuration and the counting table are; frame and table are unchanged. -/
theorem other_ethertype_dropped (env : Env) (info0 : flow_info) (bloom : Nat → Nat)
    (pkt : List Byte) (hlen : 14 ≤ pkt.length)
    (hnarp : rd pkt 12 * 256 + rd pkt 13 ≠ 0x0806)
    (hnip : rd pkt 12 * 256 + rd pkt 13 ≠ 0x0800) :
    xdp_hhd_v2 env info0 bloom pkt = some ⟨XDP_DROP, pkt, bloom, none⟩ := by
  have h12 := rd_lt pkt 12
  have h13 := rd_lt pkt 13
  apply xdp_hhd_v2_of_ret
  have h2 : ¬ (rd pkt 12 = 8 ∧ rd pkt 13 = 6) := by omega
  have h3 : ¬ (rd pkt 12 = 8 ∧ rd pkt 13 = 0) := by omega
  rw [xdp_parse_eq, if_neg (by omega), if_neg h2, if_pos h3]

/-- The statement of C12 at the IPv6 frame `frameIpv6`. -/
theorem other_ethertype_dropped_witness :
    14 ≤ frameIpv6.length ∧ rd frameIpv6 12 * 256 + rd frameIpv6 13 ≠ 0x0806 ∧
    rd frameIpv6 12 * 256 + rd frameIpv6 13 ≠ 0x0800 ∧
    xdp_hhd_v2 envDemo stack0 bloom0 frameIpv6 = some ⟨XDP_DROP, frameIpv6, bloom0, none⟩ :=
  ⟨by decide, by decide, by decide,
    other_ethertype_dropped envDemo stack0 bloom0 frameIpv6 (by decide) (by decide) (by decide)⟩

/-- Parsing hands exactly the well-formed TCP and UDP frames to the detector, with the key
read from the frame. -/
theorem xdp_parse_hhd_iff (be : Bool) (info0 : flow_info) (pkt : List Byte) :
    (valid_tcp pkt ∨ valid_udp pkt →
      xdp_parse be info0 pkt = some (Parsed.hhd (some 0) (l4_info be info0 pkt))) ∧
    (∀ eth info, xdp_parse be info0 pkt = some (Parsed.hhd eth info) →
      (valid_tcp pkt ∨ valid_udp pkt) ∧ eth = some 0 ∧ info = l4_info be info0 pkt) := by
  have hx := xdp_parse_eq be info0 pkt
  unfold valid_tcp valid_udp valid_ipv4
  constructor
  · intro hv
    rw [hx]
    split_ifs <;> first | rfl | omega
  · intro eth info h
    rw [hx] at h
    simp only [Option.some.injEq] at h
    split_ifs at h <;> cases h <;> exact ⟨by omega, rfl, rfl⟩

/-- Parsing sends exactly the well-formed IPv4 frames of another protocol to the label
`forward`, with addresses and protocol read from the frame. -/
theorem xdp_parse_fwd_iff (be : Bool) (info0 : flow_info) (pkt : List Byte) :
    (valid_other pkt →
      xdp_parse be info0 pkt = some (Parsed.fwd (some 0) (l3_info be info0 pkt))) ∧
    (∀ eth info, xdp_parse be info0 pkt = some (Parsed.fwd eth info) →
      valid_other pkt ∧ eth = some 0 ∧ info = l3_info be info0 pkt) := by
  have hx := xdp_parse_eq be info0 pkt
  unfold valid_other valid_ipv4
  constructor
  · intro hv
    rw [hx]
    split_ifs <;> first | rfl | omega
  · intro eth info h
    rw [hx] at h
    simp only [Option.some.injEq] at h
    split_ifs at h
    cases h
    exact ⟨by omega, rfl, rfl⟩

/-- Parsing returns Drop exactly on the malformed frames. -/
theorem xdp_parse_drop_iff (be : Bool) (info0 : flow_info) (pkt : List Byte) :
    xdp_parse be info0 pkt = some (Parsed.ret XDP_DROP) ↔ malformed pkt := by
  have hx := xdp_parse_eq be info0 pkt
  unfold malformed valid_ipv4
  rw [hx]
  simp only [Option.some.injEq]
  constructor
  · intro h
    split_ifs at h <;> first
      | omega
      | (simp [XDP_PASS, XDP_DROP] at h)
  · intro h
    split_ifs <;> first | rfl | omega

/-- Outcome of the forwarding step in terms of the two lookups, the range check and the
redirect helper. -/
theorem xdp_forward_outcome (env : Env) (bloom : Nat → Nat) (pkt : List Byte)
    (info : flow_info) (hlen : 12 ≤ pkt.length) :
    ∃ r, xdp_forward env bloom pkt (some 0) info = some r ∧
      (r.action = XDP_ABORTED ↔
        env.ipv4_lookup_map info.dest_ip = none ∨
        ∃ val, env.ipv4_lookup_map info.dest_ip = some val ∧
          (val.outPort.val < 1 ∨ 4 < val.outPort.val ∨
            env.src_mac_map val.outPort.val = none ∨
            env.bpf_redirect_map val.outPort.val 0 ≠ XDP_REDIRECT)) ∧
      (r.action ≠ XDP_ABORTED →
        ∃ val, env.ipv4_lookup_map info.dest_ip = some val ∧
          1 ≤ val.outPort.val ∧ val.outPort.val ≤ 4 ∧
          r.action = XDP_REDIRECT ∧ r.redirect = some val.outPort.val) ∧
      r.action ≠ XDP_DROP ∧ r.action ≠ XDP_PASS := by
  have hAD : XDP_ABORTED ≠ XDP_DROP := by decide
  have hAP : XDP_ABORTED ≠ XDP_PASS := by decide
  have hRD : XDP_REDIRECT ≠ XDP_DROP := by decide
  have hRP : XDP_REDIRECT ≠ XDP_PASS := by decide
  have hRA : XDP_REDIRECT ≠ XDP_ABORTED := by decide
  rw [xdp_forward_eq env bloom pkt info hlen]
  refine ⟨_, rfl, ?_⟩
  cases hr : env.ipv4_lookup_map info.dest_ip with
  | none =>
    dsimp only
    exact ⟨⟨fun _ => Or.inl rfl, fun _ => rfl⟩, fun h => absurd rfl h, hAD, hAP⟩
  | some val =>
    dsimp only
    by_cases hp : val.outPort.val < 1 ∨ val.outPort.val > 4
    · rw [if_pos hp]
      refine ⟨⟨fun _ => Or.inr ⟨val, rfl, by omega⟩, fun _ => rfl⟩, fun h => absurd rfl h,
        hAD, hAP⟩
    · rw [if_neg hp]
      cases hs : env.src_mac_map val.outPort.val with
      | none =>
        dsimp only
        refine ⟨⟨fun _ => Or.inr ⟨val, rfl, Or.inr (Or.inr (Or.inl hs))⟩, fun _ => rfl⟩,
          fun h => absurd rfl h, hAD, hAP⟩
      | some smv =>
        dsimp only
        by_cases hq : env.bpf_redirect_map val.outPort.val 0 = XDP_REDIRECT
        · rw [if_pos hq]
          refine ⟨⟨fun h => absurd h hRA, fun h => ?_⟩,
            fun _ => ⟨val, rfl, by omega, by omega, rfl, rfl⟩, hRD, hRP⟩
          rcases h with h | ⟨v, hv, hc⟩
          · exact absurd h (by simp)
          · simp only [Option.some.injEq] at hv
            subst hv
            rcases hc with hc | hc | hc | hc
            · omega
            · omega
            · rw [hs] at hc
              exact absurd hc (by simp)
            · exact absurd hq hc
        · rw [if_neg hq]
          refine ⟨⟨fun _ => Or.inr ⟨val, rfl, Or.inr (Or.inr (Or.inr hq))⟩, fun _ => rfl⟩,
            fun h => absurd rfl h, hAD, hAP⟩

/-! ## Forwarding outcome (C13) -/

/-- C13: for every packet that reaches the forwarding step (a non-TCP/UDP IPv4 packet, or a
TCP/UDP packet the detector does not drop), the outcome is Abort if and only if the
destination address has no route entry, or the entry's egress port is outside 1..4, or the
port has no source-MAC entry, or the redirect helper does not return `XDP_REDIRECT`; in
every other case the outcome is Redirect, the helper having been called with the route
entry's egress port, which lies in 1..4.  The outcome is never Drop and never Pass. -/
theorem forwarding_outcome (env : Env) (info0 : flow_info) (bloom : Nat → Nat)
    (pkt : List Byte) (eth : Option Nat) (info : flow_info)
    (hfw : xdp_parse env.bigEndian info0 pkt = some (Parsed.fwd eth info) ∨
      (xdp_parse env.bigEndian info0 pkt = some (Parsed.hhd eth info) ∧
        ¬ both_exceed env (bloom_probed env bloom info) info)) :
    ∃ r, xdp_hhd_v2 env info0 bloom pkt = some r ∧
      info.dest_ip = val32 env.bigEndian pkt 30 ∧
      (r.action = XDP_ABORTED ↔
        env.ipv4_lookup_map info.dest_ip = none ∨
        ∃ val, env.ipv4_lookup_map info.dest_ip = some val ∧
          (val.outPort.val < 1 ∨ 4 < val.outPort.val ∨
            env.src_mac_map val.outPort.val = none ∨
            env.bpf_redirect_map val.outPort.val 0 ≠ XDP_REDIRECT)) ∧
      (r.action ≠ XDP_ABORTED →
        ∃ val, env.ipv4_lookup_map info.dest_ip = some val ∧
          1 ≤ val.outPort.val ∧ val.outPort.val ≤ 4 ∧
          r.action = XDP_REDIRECT ∧ r.redirect = some val.outPort.val) ∧
      r.action ≠ XDP_DROP ∧ r.action ≠ XDP_PASS := by
  rcases hfw with hv | ⟨hv, hx⟩
  · obtain ⟨hlen, heth, hd, -⟩ := xdp_parse_cont env.bigEndian info0 pkt eth info (Or.inr hv)
    subst heth
    rw [xdp_hhd_v2_of_fwd env info0 bloom pkt _ info hv]
    obtain ⟨r, hr, h1, h2, h3, h4⟩ := xdp_forward_outcome env bloom pkt info (by omega)
    exact ⟨r, hr, hd, h1, h2, h3, h4⟩
  · obtain ⟨hlen, heth, hd, -⟩ := xdp_parse_cont env.bigEndian info0 pkt eth info (Or.inl hv)
    subst heth
    rw [xdp_hhd_v2_of_hhd env info0 bloom pkt _ info hv, if_neg hx]
    obtain ⟨r, hr, h1, h2, h3, h4⟩ :=
      xdp_forward_outcome env (bloom_probed env bloom info) pkt info (by omega)
    exact ⟨r, hr, hd, h1, h2, h3, h4⟩

/-- The statement of C13 at `frameIcmp` under `envBadPort`, whose route entry names the
egress port 5. -/
theorem forwarding_outcome_witness :
    xdp_parse envBadPort.bigEndian stack0 frameIcmp = some (Parsed.fwd (some 0) keyIcmp) ∧
    ∃ r, xdp_hhd_v2 envBadPort stack0 bloom0 frameIcmp = some r ∧
      keyIcmp.dest_ip = val32 envBadPort.bigEndian frameIcmp 30 ∧
      (r.action = XDP_ABORTED ↔
        envBadPort.ipv4_lookup_map keyIcmp.dest_ip = none ∨
        ∃ val, envBadPort.ipv4_lookup_map keyIcmp.dest_ip = some val ∧
          (val.outPort.val < 1 ∨ 4 < val.outPort.val ∨
            envBadPort.src_mac_map val.outPort.val = none ∨
            envBadPort.bpf_redirect_map val.outPort.val 0 ≠ XDP_REDIRECT)) ∧
      (r.action ≠ XDP_ABORTED →
        ∃ val, envBadPort.ipv4_lookup_map keyIcmp.dest_ip = some val ∧
          1 ≤ val.outPort.val ∧ val.outPort.val ≤ 4 ∧
          r.action = XDP_REDIRECT ∧ r.redirect = some val.outPort.val) ∧
      r.action ≠ XDP_DROP ∧ r.action ≠ XDP_PASS :=
  ⟨by decide, forwarding_outcome envBadPort stack0 bloom0 frameIcmp (some 0) keyIcmp
    (Or.inl (by decide))⟩

/-! ## Determinism of the malformed-input classification (C14) -/

/-- C14: a frame that fails at any parse stage (Ethernet header truncated, ethertype neither
ARP nor IPv4, IPv4 header truncated or of bad length, TCP or UDP header truncated or of bad
length) is one for which the parsing half returns Drop, and it yields Drop, with frame and
table untouched, in any two states: whatever the thresholds, hash functions, route tables,
source-MAC tables, redirect helpers, initial contents of `info` and counting tables are,
the two invocations return the same action. -/
theorem malformed_classification_deterministic (env1 env2 : Env) (info1 info2 : flow_info)
    (bloom1 bloom2 : Nat → Nat) (pkt : List Byte) (hm : malformed pkt) :
    xdp_parse env1.bigEndian info1 pkt = some (Parsed.ret XDP_DROP) ∧
    xdp_hhd_v2 env1 info1 bloom1 pkt = some ⟨XDP_DROP, pkt, bloom1, none⟩ ∧
    xdp_hhd_v2 env2 info2 bloom2 pkt = some ⟨XDP_DROP, pkt, bloom2, none⟩ ∧
    (xdp_hhd_v2 env1 info1 bloom1 pkt).map XdpResult.action =
      (xdp_hhd_v2 env2 info2 bloom2 pkt).map XdpResult.action := by
  have h1 := (xdp_parse_drop_iff env1.bigEndian info1 pkt).2 hm
  have h2 := (xdp_parse_drop_iff env2.bigEndian info2 pkt).2 hm
  have r1 := xdp_hhd_v2_of_ret env1 info1 bloom1 pkt XDP_DROP h1
  have r2 := xdp_hhd_v2_of_ret env2 info2 bloom2 pkt XDP_DROP h2
  refine ⟨h1, r1, r2, ?_⟩
  rw [r1, r2]
  rfl

/-- The statement of C14 at `frameTcpBad`, once under `envDemo` from the zero table and once
under `envNoRoute` with another initial `info` and a table of sevens. -/
theorem malformed_classification_deterministic_witness :
    malformed frameTcpBad ∧
    xdp_parse envDemo.bigEndian stack0 frameTcpBad = some (Parsed.ret XDP_DROP) ∧
    xdp_hhd_v2 envDemo stack0 bloom0 frameTcpBad =
      some ⟨XDP_DROP, frameTcpBad, bloom0, none⟩ ∧
    xdp_hhd_v2 envNoRoute stack1 bloom7 frameTcpBad =
      some ⟨XDP_DROP, frameTcpBad, bloom7, none⟩ ∧
    (xdp_hhd_v2 envDemo stack0 bloom0 frameTcpBad).map XdpResult.action =
      (xdp_hhd_v2 envNoRoute stack1 bloom7 frameTcpBad).map XdpResult.action :=
  ⟨by decide, malformed_classification_deterministic envDemo envNoRoute stack0 stack1 bloom0
    bloom7 frameTcpBad (by decide)⟩

/-- The program returns on every input: no memory access of an invocation is out of
bounds. -/
theorem xdp_hhd_v2_total (env : Env) (info0 : flow_info) (bloom : Nat → Nat)
    (pkt : List Byte) : ∃ r, xdp_hhd_v2 env info0 bloom pkt = some r := by
  obtain ⟨p, hp⟩ : ∃ p, xdp_parse env.bigEndian info0 pkt = some p :=
    ⟨_, xdp_parse_eq env.bigEndian info0 pkt⟩
  cases p with
  | ret a => exact ⟨_, xdp_hhd_v2_of_ret env info0 bloom pkt a hp⟩
  | fwd eth info =>
    obtain ⟨hlen, heth, -⟩ := xdp_parse_cont env.bigEndian info0 pkt eth info (Or.inr hp)
    subst heth
    obtain ⟨r, hr, -⟩ := xdp_forward_action env bloom pkt info (by omega)
    exact ⟨r, by rw [xdp_hhd_v2_of_fwd env info0 bloom pkt _ info hp, hr]⟩
  | hhd eth info =>
    obtain ⟨r, hr, -⟩ := xdp_hhd_v2_hhd_result env info0 bloom pkt eth info hp
    exact ⟨r, hr⟩

/-- The table of the result is the table after the invocation. -/
theorem xdp_hhd_v2_bloom (env : Env) (info0 : flow_info) (bloom : Nat → Nat)
    (pkt : List Byte) :
    ∃ r, xdp_hhd_v2 env info0 bloom pkt = some r ∧ r.bloom = bloom_after env bloom (info0, pkt) := by
  obtain ⟨r, hr⟩ := xdp_hhd_v2_total env info0 bloom pkt
  refine ⟨r, hr, ?_⟩
  unfold bloom_after
  dsimp only
  rw [hr]

/-- One invocation probes a slot at most twice. -/
theorem probes_le_two (env : Env) (e : flow_info × List Byte) (s : Nat) : probes env e s ≤ 2 := by
  unfold probes
  split
  · split_ifs <;> omega
  · omega

/-! ## Counter monotonicity (C15) -/

/-- C15 as stated fails at the wrap of the 64-bit counters: on a table whose slots hold
2 ^ 64 - 1 the valid TCP frame `frameTcp` leaves 0 in the slot of its first probe, which is
less than the value before. -/
theorem counter_wraps_to_zero :
    xdp_parse envDemo.bigEndian stack0 frameTcp = some (Parsed.hhd (some 0) keyTcp) ∧
    h_fasthash envDemo keyTcp < BLOOM_FILTER_ENTRIES ∧
    bloomMax (h_fasthash envDemo keyTcp) = 2 ^ 64 - 1 ∧
    (xdp_hhd_v2 envDemo stack0 bloomMax frameTcp).map
      (fun r => r.bloom (h_fasthash envDemo keyTcp)) = some 0 ∧
    ¬ (bloomMax (h_fasthash envDemo keyTcp) ≤ 0) := by
  decide

/-- C15 (amended): for every frame and every state whose counters are 64-bit values, the
invocation returns and every counter afterwards equals its value before plus the number k
of probes made at that slot (0, 1 or 2), modulo 2 ^ 64.  Hence a counter that is not probed
is unchanged, and a probed counter is greater than or equal to its value before whenever
the addition does not wrap (value before plus k below 2 ^ 64). -/
theorem counters_monotone_until_wrap (env : Env) (info0 : flow_info) (bloom : Nat → Nat)
    (pkt : List Byte) (hwf : ∀ s, bloom s < 2 ^ 64) :
    ∃ r, xdp_hhd_v2 env info0 bloom pkt = some r ∧
      ∀ s, probes env (info0, pkt) s ≤ 2 ∧
        r.bloom s = (bloom s + probes env (info0, pkt) s) % 2 ^ 64 ∧
        (probes env (info0, pkt) s = 0 → r.bloom s = bloom s) ∧
        (bloom s + probes env (info0, pkt) s < 2 ^ 64 → bloom s ≤ r.bloom s) := by
  obtain ⟨r, hr, hb⟩ := xdp_hhd_v2_bloom env info0 bloom pkt
  refine ⟨r, hr, fun s => ?_⟩
  have hs := bloom_after_slot env bloom (info0, pkt) s (hwf s)
  have hw := hwf s
  rw [hb, hs]
  refine ⟨probes_le_two env _ s, rfl, fun h0 => ?_, fun hlt => ?_⟩
  · rw [h0, Nat.add_zero]
    exact Nat.mod_eq_of_lt hw
  · rw [Nat.mod_eq_of_lt hlt]
    exact Nat.le_add_right _ _

/-- The amended C15 at `frameTcp` under `envDemo`, starting from the zero table. -/
theorem counters_monotone_until_wrap_witness :
    (∀ s, bloom0 s < 2 ^ 64) ∧
    ∃ r, xdp_hhd_v2 envDemo stack0 bloom0 frameTcp = some r ∧
      ∀ s, probes envDemo (stack0, frameTcp) s ≤ 2 ∧
        r.bloom s = (bloom0 s + probes envDemo (stack0, frameTcp) s) % 2 ^ 64 ∧
        (probes envDemo (stack0, frameTcp) s = 0 → r.bloom s = bloom0 s) ∧
        (bloom0 s + probes envDemo (stack0, frameTcp) s < 2 ^ 64 → bloom0 s ≤ r.bloom s) :=
  ⟨fun _ => (by decide : (0 : Nat) < 2 ^ 64),
    counters_monotone_until_wrap envDemo stack0 bloom0 frameTcp
      (fun _ => (by decide : (0 : Nat) < 2 ^ 64))⟩

/-! ## Table indices (C16) -/

/-- C16: for every hash result x, the index (x mod 2 ^ 32) mod 4096 lies below 4096, so the
lookup on the 4096-entry array yields its slot; hence for every frame that reaches the
detector the range check of line 244 is false, both calls of
`lookup_and_increment_counter` return a slot, and the invocation is either the detector's
Drop or the result of the forwarding step: none of the three Abort exits of the detector is
taken. -/
theorem detector_never_aborts (env : Env) (info0 : flow_info) (bloom : Nat → Nat)
    (pkt : List Byte) (eth : Option Nat) (info : flow_info)
    (hv : xdp_parse env.bigEndian info0 pkt = some (Parsed.hhd eth info)) :
    (∀ (x : Nat) (b : Nat → Nat),
      x % 2 ^ 32 % BLOOM_FILTER_ENTRIES < BLOOM_FILTER_ENTRIES ∧
      bloom_lookup (x % 2 ^ 32 % BLOOM_FILTER_ENTRIES) =
        some (x % 2 ^ 32 % BLOOM_FILTER_ENTRIES) ∧
      (lookup_and_increment_counter b (x % 2 ^ 32 % BLOOM_FILTER_ENTRIES)).1 =
        some (x % 2 ^ 32 % BLOOM_FILTER_ENTRIES)) ∧
    ¬ (h_fasthash env info ≥ BLOOM_FILTER_ENTRIES ∨ h_jhash env info ≥ BLOOM_FILTER_ENTRIES) ∧
    (lookup_and_increment_counter bloom (h_fasthash env info)).1 =
      some (h_fasthash env info) ∧
    (lookup_and_increment_counter (bloom_inc bloom (h_fasthash env info))
      (h_jhash env info)).1 = some (h_jhash env info) ∧
    ∃ r, xdp_hhd_v2 env info0 bloom pkt = some r ∧
      ((both_exceed env (bloom_probed env bloom info) info ∧
          r.action = XDP_DROP ∧ r.pkt = pkt ∧ r.bloom = bloom_probed env bloom info ∧
          r.redirect = none) ∨
        (¬ both_exceed env (bloom_probed env bloom info) info ∧
          xdp_forward env (bloom_probed env bloom info) pkt eth info = some r)) := by
  have hf := h_fasthash_lt env info
  have hj := h_jhash_lt env info
  refine ⟨fun x b => ?_, by omega, ?_, ?_, ?_⟩
  · have hx : x % 2 ^ 32 % BLOOM_FILTER_ENTRIES < BLOOM_FILTER_ENTRIES :=
      Nat.mod_lt _ (by decide)
    refine ⟨hx, ?_, ?_⟩
    · unfold bloom_lookup
      rw [if_pos hx]
    · rw [lookup_and_increment_counter_eq b _ hx]
  · rw [lookup_and_increment_counter_eq _ _ hf]
  · rw [lookup_and_increment_counter_eq _ _ hj]
  · rw [xdp_hhd_v2_of_hhd env info0 bloom pkt eth info hv]
    by_cases hx : both_exceed env (bloom_probed env bloom info) info
    · rw [if_pos hx]
      exact ⟨_, rfl, Or.inl ⟨hx, rfl, rfl, rfl, rfl⟩⟩
    · rw [if_neg hx]
      obtain ⟨hlen, heth, -⟩ := xdp_parse_cont env.bigEndian info0 pkt eth info (Or.inl hv)
      subst heth
      obtain ⟨r, hr, -⟩ :=
        xdp_forward_action env (bloom_probed env bloom info) pkt info (by omega)
      exact ⟨r, hr, Or.inr ⟨hx, hr⟩⟩

/-- The statement of C16 at `frameTcp` under `envDemo`, starting from the zero table. -/
theorem detector_never_aborts_witness :
    xdp_parse envDemo.bigEndian stack0 frameTcp = some (Parsed.hhd (some 0) keyTcp) ∧
    ¬ (h_fasthash envDemo keyTcp ≥ BLOOM_FILTER_ENTRIES ∨
      h_jhash envDemo keyTcp ≥ BLOOM_FILTER_ENTRIES) ∧
    ∃ r, xdp_hhd_v2 envDemo stack0 bloom0 frameTcp = some r ∧
      ((both_exceed envDemo (bloom_probed envDemo bloom0 keyTcp) keyTcp ∧
          r.action = XDP_DROP ∧ r.pkt = frameTcp ∧
          r.bloom = bloom_probed envDemo bloom0 keyTcp ∧ r.redirect = none) ∨
        (¬ both_exceed envDemo (bloom_probed envDemo bloom0 keyTcp) keyTcp ∧
          xdp_forward envDemo (bloom_probed envDemo bloom0 keyTcp) frameTcp (some 0) keyTcp =
            some r)) :=
  ⟨by decide,
    (detector_never_aborts envDemo stack0 bloom0 frameTcp (some 0) keyTcp (by decide)).2.1,
    (detector_never_aborts envDemo stack0 bloom0 frameTcp (some 0) keyTcp
      (by decide)).2.2.2.2⟩

/-- What a non-negative result of `parse_ethhdr` at the frame start says. -/
theorem parse_ethhdr_ok (be : Bool) (pkt : List Byte) (pe : ParseResult)
    (h : parse_ethhdr be pkt 0 0 = some pe) (hret : 0 ≤ pe.ret) :
    14 ≤ pkt.length ∧ pe.nh_off = 14 ∧ pe.hdr = some 0 := by
  rw [parse_ethhdr_eq] at h
  by_cases hc : 0 + 14 > pkt.length
  · rw [if_pos hc] at h
    simp only [Option.some.injEq] at h
    subst h
    exact absurd (show (0 : Int) ≤ -1 from hret) (by decide)
  · rw [if_neg hc] at h
    simp only [Option.some.injEq] at h
    subst h
    exact ⟨by omega, rfl, rfl⟩

/-- What a non-negative result of `parse_tcphdr` says. -/
theorem parse_tcphdr_ok (pkt : List Byte) (data nh_off : Nat) (pt : ParseResult)
    (h : parse_tcphdr pkt data nh_off = some pt) (hret : 0 ≤ pt.ret) :
    20 ≤ tcp_hlen pkt data ∧ tcp_hlen pkt data ≤ 60 ∧ data + tcp_hlen pkt data ≤ pkt.length ∧
      pt.nh_off = (nh_off + tcp_hlen pkt data) % 65536 ∧ pt.hdr = some data := by
  rw [parse_tcphdr_eq] at h
  unfold tcp_hlen
  by_cases hc : data + 20 > pkt.length ∨ (rd pkt (data + 12) / 16) * 4 < 20 ∨
      (rd pkt (data + 12) / 16) * 4 > 60 ∨
      data + (rd pkt (data + 12) / 16) * 4 > pkt.length
  · rw [if_pos hc] at h
    simp only [Option.some.injEq] at h
    subst h
    exact absurd (show (0 : Int) ≤ -1 from hret) (by decide)
  · rw [if_neg hc] at h
    simp only [Option.some.injEq] at h
    subst h
    exact ⟨by omega, by omega, by omega, rfl, rfl⟩

/-- What a non-negative result of `parse_udphdr` says. -/
theorem parse_udphdr_ok (be : Bool) (pkt : List Byte) (data nh_off : Nat) (pu : ParseResult)
    (h : parse_udphdr be pkt data nh_off = some pu) (hret : 0 ≤ pu.ret) :
    data + 8 ≤ pkt.length ∧ 8 ≤ rd pkt (data + 4) * 256 + rd pkt (data + 5) ∧
      pu.nh_off = (nh_off + 8) % 65536 ∧ pu.hdr = some data := by
  rw [parse_udphdr_eq] at h
  by_cases hc : data + 8 > pkt.length ∨ rd pkt (data + 4) * 256 + rd pkt (data + 5) < 8
  · rw [if_pos hc] at h
    simp only [Option.some.injEq] at h
    subst h
    exact absurd (show (0 : Int) ≤ -1 from hret) (by decide)
  · rw [if_neg hc] at h
    simp only [Option.some.injEq] at h
    subst h
    exact ⟨by omega, by omega, rfl, rfl⟩

/-! ## Bounds discipline (C17) -/

/-- C17: with every memory access bounds-checked (`none` for an offset at or beyond the frame
length), the four parsers return at every position of every frame and the program returns
on every frame, so no read or write of an invocation is out of bounds.  In the program's
chain of parsers, after a successful Ethernet parse the 16-bit cursor is 14, after a
successful IPv4 parse it is 14 + ihl * 4, after a successful TCP or UDP parse it is that
plus doff * 4 or plus 8; each value is at most the frame length and at most 134, so the
cursor never wraps. -/
theorem bounds_discipline (env : Env) (info0 : flow_info) (bloom : Nat → Nat)
    (pkt : List Byte) (data nh_off : Nat) :
    (∃ r, parse_ethhdr env.bigEndian pkt data nh_off = some r) ∧
    (∃ r, parse_iphdr pkt data nh_off = some r) ∧
    (∃ r, parse_tcphdr pkt data nh_off = some r) ∧
    (∃ r, parse_udphdr env.bigEndian pkt data nh_off = some r) ∧
    (∃ r, xdp_parse env.bigEndian info0 pkt = some r) ∧
    (∃ r, xdp_hhd_v2 env info0 bloom pkt = some r) ∧
    (∀ pe : ParseResult, parse_ethhdr env.bigEndian pkt 0 0 = some pe → 0 ≤ pe.ret →
      pe.nh_off = 14 ∧ pe.nh_off ≤ pkt.length ∧
      ∀ pi : ParseResult, parse_iphdr pkt pe.nh_off pe.nh_off = some pi → 0 ≤ pi.ret →
        pi.nh_off = 14 + ip_hlen pkt ∧ pi.nh_off ≤ pkt.length ∧ pi.nh_off ≤ 74 ∧
        (∀ pt : ParseResult, parse_tcphdr pkt pi.nh_off pi.nh_off = some pt → 0 ≤ pt.ret →
          pt.nh_off = 14 + ip_hlen pkt + tcp_hlen pkt (14 + ip_hlen pkt) ∧
          pt.nh_off ≤ pkt.length ∧ pt.nh_off ≤ 134) ∧
        (∀ pu : ParseResult,
          parse_udphdr env.bigEndian pkt pi.nh_off pi.nh_off = some pu → 0 ≤ pu.ret →
          pu.nh_off = 14 + ip_hlen pkt + 8 ∧ pu.nh_off ≤ pkt.length ∧ pu.nh_off ≤ 134)) := by
  refine ⟨⟨_, parse_ethhdr_eq _ _ _ _⟩, ⟨_, parse_iphdr_eq _ _ _⟩, ⟨_, parse_tcphdr_eq _ _ _⟩,
    ⟨_, parse_udphdr_eq _ _ _ _⟩, ⟨_, xdp_parse_eq _ _ _⟩, xdp_hhd_v2_total env info0 bloom pkt,
    ?_⟩
  intro pe hpe hre
  obtain ⟨hlen, hoff, -⟩ := parse_ethhdr_ok env.bigEndian pkt pe hpe hre
  refine ⟨hoff, by omega, ?_⟩
  intro pi hpi hri
  rw [hoff] at hpi
  obtain ⟨hok, -, hio⟩ := parse_iphdr_ok pkt pi hpi hri
  have hh : ip_hlen pkt ≤ 60 := by
    have := rd_lt pkt 14
    unfold ip_hlen
    omega
  refine ⟨hio, by omega, by omega, ?_, ?_⟩
  · intro pt hpt hrt
    rw [hio] at hpt
    obtain ⟨h1, h2, h3, h4, -⟩ := parse_tcphdr_ok pkt _ _ pt hpt hrt
    rw [h4, Nat.mod_eq_of_lt (by omega)]
    exact ⟨rfl, by omega, by omega⟩
  · intro pu hpu hru
    rw [hio] at hpu
    obtain ⟨h1, h2, h3, -⟩ := parse_udphdr_ok env.bigEndian pkt _ _ pu hpu hru
    rw [h3, Nat.mod_eq_of_lt (by omega)]
    exact ⟨rfl, by omega, by omega⟩

/-- The cursor chain of C17 on `frameTcp`: 14, then 34, then 54, the frame length. -/
theorem bounds_discipline_witness :
    parse_ethhdr envDemo.bigEndian frameTcp 0 0 = some ⟨8, 14, some 0⟩ ∧
    parse_iphdr frameTcp 14 14 = some ⟨6, 34, some 14⟩ ∧
    parse_tcphdr frameTcp 34 34 = some ⟨20, 54, some 34⟩ ∧
    ((54 : Nat) = 14 + ip_hlen frameTcp + tcp_hlen frameTcp (14 + ip_hlen frameTcp) ∧
      54 ≤ frameTcp.length ∧ 54 ≤ 134) :=
  ⟨by decide, by decide, by decide,
    ((((bounds_discipline envDemo stack0 bloom0 frameTcp 0 0).2.2.2.2.2.2
      ⟨8, 14, some 0⟩ (by decide) (by decide)).2.2
      ⟨6, 34, some 14⟩ (by decide) (by decide)).2.2.2.1
      ⟨20, 54, some 34⟩ (by decide) (by decide))⟩

/-! ## Effect on the counting table (C18) -/

/-- C18: every invocation returns.  For a well-formed IPv4 frame with a well-formed TCP or
UDP header the table of the result is the input table with the slot of the first index
incremented and then the slot of the second index incremented (modulo 2 ^ 64), whatever
the action is: slots other than the two indices are unchanged, two distinct indices are
each increased by 1, and coinciding indices increase their one slot by 2.  For every other
frame (parse failure, ARP, other ethertype, IPv4 of another protocol) the table of the
result is the input table. -/
theorem table_effect (env : Env) (info0 : flow_info) (bloom : Nat → Nat) (pkt : List Byte) :
    ∃ r, xdp_hhd_v2 env info0 bloom pkt = some r ∧
      (valid_tcp pkt ∨ valid_udp pkt →
        r.bloom = bloom_inc
          (bloom_inc bloom (h_fasthash env (l4_info env.bigEndian info0 pkt)))
          (h_jhash env (l4_info env.bigEndian info0 pkt)) ∧
        (∀ s, s ≠ h_fasthash env (l4_info env.bigEndian info0 pkt) →
          s ≠ h_jhash env (l4_info env.bigEndian info0 pkt) → r.bloom s = bloom s) ∧
        (h_fasthash env (l4_info env.bigEndian info0 pkt) ≠
            h_jhash env (l4_info env.bigEndian info0 pkt) →
          r.bloom (h_fasthash env (l4_info env.bigEndian info0 pkt)) =
            (bloom (h_fasthash env (l4_info env.bigEndian info0 pkt)) + 1) % 2 ^ 64 ∧
          r.bloom (h_jhash env (l4_info env.bigEndian info0 pkt)) =
            (bloom (h_jhash env (l4_info env.bigEndian info0 pkt)) + 1) % 2 ^ 64) ∧
        (h_fasthash env (l4_info env.bigEndian info0 pkt) =
            h_jhash env (l4_info env.bigEndian info0 pkt) →
          r.bloom (h_fasthash env (l4_info env.bigEndian info0 pkt)) =
            (bloom (h_fasthash env (l4_info env.bigEndian info0 pkt)) + 2) % 2 ^ 64)) ∧
      (¬ (valid_tcp pkt ∨ valid_udp pkt) → r.bloom = bloom) := by
  obtain ⟨r, hr, hb⟩ := xdp_hhd_v2_bloom env info0 bloom pkt
  have hae := bloom_after_eq env bloom (info0, pkt)
  obtain ⟨hto, hfrom⟩ := xdp_parse_hhd_iff env.bigEndian info0 pkt
  refine ⟨r, hr, ?_, ?_⟩
  · intro hv
    have hp := hto hv
    dsimp only at hae
    rw [hp] at hae
    dsimp only at hae
    have hbb : r.bloom = bloom_inc
          (bloom_inc bloom (h_fasthash env (l4_info env.bigEndian info0 pkt)))
          (h_jhash env (l4_info env.bigEndian info0 pkt)) := by
      rw [hb, hae]
      rfl
    refine ⟨hbb, ?_, ?_, ?_⟩
    · intro s h1 h2
      rw [hbb]
      unfold bloom_inc
      rw [if_neg h2, if_neg h1]
    · intro hne
      rw [hbb]
      unfold bloom_inc
      constructor
      · rw [if_neg hne, if_pos rfl]
      · rw [if_pos rfl, if_neg (fun h => hne h.symm)]
    · intro heq
      rw [hbb]
      unfold bloom_inc
      rw [← heq]
      simp only [if_true]
      omega
  · intro hnv
    rw [hb, hae]
    dsimp only
    cases hp : xdp_parse env.bigEndian info0 pkt with
    | none => rfl
    | some p =>
      cases p with
      | ret a => rfl
      | fwd eth info => rfl
      | hhd eth info => exact absurd (hfrom eth info hp).1 hnv

/-- The statement of C18 at `frameTcp` (a well-formed TCP frame) under `envDemo`. -/
theorem table_effect_witness :
    valid_tcp frameTcp ∧ l4_info envDemo.bigEndian stack0 frameTcp = keyTcp ∧
    h_fasthash envDemo keyTcp ≠ h_jhash envDemo keyTcp ∧
    ∃ r, xdp_hhd_v2 envDemo stack0 bloom0 frameTcp = some r ∧
      r.bloom = bloom_inc (bloom_inc bloom0 (h_fasthash envDemo keyTcp))
        (h_jhash envDemo keyTcp) ∧
      r.bloom (h_fasthash envDemo keyTcp) = (bloom0 (h_fasthash envDemo keyTcp) + 1) % 2 ^ 64 ∧
      r.bloom (h_jhash envDemo keyTcp) = (bloom0 (h_jhash envDemo keyTcp) + 1) % 2 ^ 64 := by
  obtain ⟨r, hr, hv, -⟩ := table_effect envDemo stack0 bloom0 frameTcp
  obtain ⟨h1, -, h3, -⟩ := hv (Or.inl (by decide))
  have hk : l4_info envDemo.bigEndian stack0 frameTcp = keyTcp := by decide
  rw [hk] at h1 h3
  obtain ⟨h3a, h3b⟩ := h3 (by decide)
  exact ⟨by decide, hk, by decide, r, hr, h1, h3a, h3b⟩

/-- Truncation to a byte of a frame byte gives the frame byte back. -/
theorem toByte_rd (pkt : List Byte) (i : Nat) : toByte (rd pkt i) = pkt.getD i 0 := by
  unfold toByte rd
  rw [List.getD_eq_getElem?_getD]
  cases h : pkt[i]? with
  | none => rfl
  | some b =>
    apply Fin.ext
    show b.val % 256 = b.val
    exact Nat.mod_eq_of_lt b.isLt

/-- Truncations to a byte agree when the numbers agree modulo 256. -/
theorem toByte_congr (a b : Nat) (h : a % 256 = b % 256) : toByte a = toByte b := by
  unfold toByte
  exact Fin.ext h

/-- The memory image of a loaded 16-bit field is the pair of frame bytes it was loaded from,
on either host byte order. -/
theorem bytes16_val16 (be : Bool) (pkt : List Byte) (off : Nat) :
    bytes16 be (val16 be pkt off) = [pkt.getD off 0, pkt.getD (off + 1) 0] := by
  have h0 := rd_lt pkt off
  have h1 := rd_lt pkt (off + 1)
  rw [← toByte_rd, ← toByte_rd]
  unfold bytes16 val16
  cases be
  · simp only [Bool.false_eq_true, if_false]
    rw [toByte_congr (rd pkt off + rd pkt (off + 1) * 256) (rd pkt off) (by omega),
      toByte_congr ((rd pkt off + rd pkt (off + 1) * 256) / 256) (rd pkt (off + 1)) (by omega)]
  · simp only [if_true]
    rw [toByte_congr ((rd pkt off * 256 + rd pkt (off + 1)) / 256) (rd pkt off) (by omega),
      toByte_congr (rd pkt off * 256 + rd pkt (off + 1)) (rd pkt (off + 1)) (by omega)]

/-- The memory image of a loaded 32-bit field is the four frame bytes it was loaded from, on
either host byte order. -/
theorem bytes32_val32 (be : Bool) (pkt : List Byte) (off : Nat) :
    bytes32 be (val32 be pkt off) =
      [pkt.getD off 0, pkt.getD (off + 1) 0, pkt.getD (off + 2) 0, pkt.getD (off + 3) 0] := by
  have h0 := rd_lt pkt off
  have h1 := rd_lt pkt (off + 1)
  have h2 := rd_lt pkt (off + 2)
  have h3 := rd_lt pkt (off + 3)
  rw [← toByte_rd, ← toByte_rd, ← toByte_rd, ← toByte_rd]
  unfold bytes32 val32
  cases be
  · simp only [Bool.false_eq_true, if_false]
    rw [toByte_congr (rd pkt off + rd pkt (off + 1) * 256 + rd pkt (off + 2) * 65536 +
        rd pkt (off + 3) * 16777216) (rd pkt off) (by omega),
      toByte_congr ((rd pkt off + rd pkt (off + 1) * 256 + rd pkt (off + 2) * 65536 +
        rd pkt (off + 3) * 16777216) / 256) (rd pkt (off + 1)) (by omega),
      toByte_congr ((rd pkt off + rd pkt (off + 1) * 256 + rd pkt (off + 2) * 65536 +
        rd pkt (off + 3) * 16777216) / 65536) (rd pkt (off + 2)) (by omega),
      toByte_congr ((rd pkt off + rd pkt (off + 1) * 256 + rd pkt (off + 2) * 65536 +
        rd pkt (off + 3) * 16777216) / 16777216) (rd pkt (off + 3)) (by omega)]
  · simp only [if_true]
    rw [toByte_congr ((rd pkt off * 16777216 + rd pkt (off + 1) * 65536 +
        rd pkt (off + 2) * 256 + rd pkt (off + 3)) / 16777216) (rd pkt off) (by omega),
      toByte_congr ((rd pkt off * 16777216 + rd pkt (off + 1) * 65536 +
        rd pkt (off + 2) * 256 + rd pkt (off + 3)) / 65536) (rd pkt (off + 1)) (by omega),
      toByte_congr ((rd pkt off * 16777216 + rd pkt (off + 1) * 65536 +
        rd pkt (off + 2) * 256 + rd pkt (off + 3)) / 256) (rd pkt (off + 2)) (by omega),
      toByte_congr (rd pkt off * 16777216 + rd pkt (off + 1) * 65536 +
        rd pkt (off + 2) * 256 + rd pkt (off + 3)) (rd pkt (off + 3)) (by omega)]

/-- The first 13 bytes of the memory image of the key built for a frame. -/
theorem flow_info_bytes_l4 (be : Bool) (info0 : flow_info) (pkt : List Byte) :
    (flow_info_bytes be (l4_info be info0 pkt)).take 13 =
      [pkt.getD 26 0, pkt.getD 27 0, pkt.getD 28 0, pkt.getD 29 0,
       pkt.getD 30 0, pkt.getD 31 0, pkt.getD 32 0, pkt.getD 33 0,
       pkt.getD (14 + ip_hlen pkt) 0, pkt.getD (14 + ip_hlen pkt + 1) 0,
       pkt.getD (14 + ip_hlen pkt + 2) 0, pkt.getD (14 + ip_hlen pkt + 3) 0,
       pkt.getD 23 0] := by
  unfold flow_info_bytes l4_info l3_info
  dsimp only
  rw [bytes32_val32, bytes32_val32, bytes16_val16, bytes16_val16, toByte_rd]
  rfl

/-- The program consults the route table at the host-order word of frame bytes 30..33 only:
replacing the table by one with the same entry there does not change the result. -/
theorem xdp_hhd_v2_route_key (env : Env) (info0 : flow_info) (bloom : Nat → Nat)
    (pkt : List Byte) (m : Nat → Option ipv4_lookup_val)
    (hm : m (val32 env.bigEndian pkt 30) = env.ipv4_lookup_map (val32 env.bigEndian pkt 30)) :
    xdp_hhd_v2 { env with ipv4_lookup_map := m } info0 bloom pkt =
      xdp_hhd_v2 env info0 bloom pkt := by
  have hfw : ∀ (b : Nat → Nat) (info : flow_info), 12 ≤ pkt.length →
      info.dest_ip = val32 env.bigEndian pkt 30 →
      xdp_forward { env with ipv4_lookup_map := m } b pkt (some 0) info =
        xdp_forward env b pkt (some 0) info := by
    intro b info hl hd
    rw [xdp_forward_eq _ b pkt info hl, xdp_forward_eq env b pkt info hl]
    dsimp only
    rw [hd, hm]
  obtain ⟨p, hp⟩ : ∃ p, xdp_parse env.bigEndian info0 pkt = some p :=
    ⟨_, xdp_parse_eq env.bigEndian info0 pkt⟩
  cases p with
  | ret a =>
    rw [xdp_hhd_v2_of_ret env info0 bloom pkt a hp,
      xdp_hhd_v2_of_ret { env with ipv4_lookup_map := m } info0 bloom pkt a hp]
  | fwd eth info =>
    obtain ⟨hlen, heth, hd, -⟩ := xdp_parse_cont env.bigEndian info0 pkt eth info (Or.inr hp)
    subst heth
    rw [xdp_hhd_v2_of_fwd env info0 bloom pkt _ info hp,
      xdp_hhd_v2_of_fwd { env with ipv4_lookup_map := m } info0 bloom pkt _ info hp]
    exact hfw bloom info (by omega) hd
  | hhd eth info =>
    obtain ⟨hlen, heth, hd, -⟩ := xdp_parse_cont env.bigEndian info0 pkt eth info (Or.inl hp)
    subst heth
    rw [xdp_hhd_v2_of_hhd env info0 bloom pkt _ info hp,
      xdp_hhd_v2_of_hhd { env with ipv4_lookup_map := m } info0 bloom pkt _ info hp]
    have hfw2 := hfw (bloom_probed env bloom info) info (by omega) hd
    by_cases hx : both_exceed env (bloom_probed env bloom info) info
    · have hx2 : both_exceed { env with ipv4_lookup_map := m }
          (bloom_probed { env with ipv4_lookup_map := m } bloom info) info := hx
      rw [if_pos hx, if_pos hx2]
      rfl
    · have hx2 : ¬ both_exceed { env with ipv4_lookup_map := m }
          (bloom_probed { env with ipv4_lookup_map := m } bloom info) info := hx
      rw [if_neg hx, if_neg hx2]
      exact hfw2

/-! ## Flow key extraction (C19) -/

/-- C19: for every frame that passes Ethernet, IPv4 and TCP/UDP parsing, the key handed to
the detector has as source address the host-order word of frame bytes 26..29, as
destination address that of bytes 30..33, as protocol byte 23, and as source and
destination port the host-order halfwords at offsets 14 + ihl * 4 and 14 + ihl * 4 + 2,
all inside the frame; its memory image therefore starts with frame bytes 26..33, the four
bytes at 14 + ihl * 4 and byte 23, in the frame's network byte order.  For TCP/UDP and for
other IPv4 packets alike the destination address of the key is the word of bytes 30..33,
and the route table is consulted at that key only. -/
theorem flow_key_extraction (env : Env) (info0 : flow_info) (bloom : Nat → Nat)
    (pkt : List Byte) :
    (∀ (eth : Option Nat) (info : flow_info),
      xdp_parse env.bigEndian info0 pkt = some (Parsed.hhd eth info) →
      34 ≤ pkt.length ∧ 20 ≤ ip_hlen pkt ∧ 14 + ip_hlen pkt + 4 ≤ pkt.length ∧
      info.source_ip = val32 env.bigEndian pkt 26 ∧
      info.dest_ip = val32 env.bigEndian pkt 30 ∧
      info.protocol = rd pkt 23 ∧
      info.source_port = val16 env.bigEndian pkt (14 + ip_hlen pkt) ∧
      info.dest_port = val16 env.bigEndian pkt (14 + ip_hlen pkt + 2) ∧
      (flow_info_bytes env.bigEndian info).take 13 =
        [pkt.getD 26 0, pkt.getD 27 0, pkt.getD 28 0, pkt.getD 29 0,
         pkt.getD 30 0, pkt.getD 31 0, pkt.getD 32 0, pkt.getD 33 0,
         pkt.getD (14 + ip_hlen pkt) 0, pkt.getD (14 + ip_hlen pkt + 1) 0,
         pkt.getD (14 + ip_hlen pkt + 2) 0, pkt.getD (14 + ip_hlen pkt + 3) 0,
         pkt.getD 23 0]) ∧
    (∀ (eth : Option Nat) (info : flow_info),
      xdp_parse env.bigEndian info0 pkt = some (Parsed.hhd eth info) ∨
        xdp_parse env.bigEndian info0 pkt = some (Parsed.fwd eth info) →
      info.dest_ip = val32 env.bigEndian pkt 30 ∧
      bytes32 env.bigEndian info.dest_ip =
        [pkt.getD 30 0, pkt.getD 31 0, pkt.getD 32 0, pkt.getD 33 0]) ∧
    (∀ m : Nat → Option ipv4_lookup_val,
      m (val32 env.bigEndian pkt 30) = env.ipv4_lookup_map (val32 env.bigEndian pkt 30) →
      xdp_hhd_v2 { env with ipv4_lookup_map := m } info0 bloom pkt =
        xdp_hhd_v2 env info0 bloom pkt) := by
  refine ⟨?_, ?_, fun m hm => xdp_hhd_v2_route_key env info0 bloom pkt m hm⟩
  · intro eth info hv
    obtain ⟨hvalid, -, hinfo⟩ := (xdp_parse_hhd_iff env.bigEndian info0 pkt).2 eth info hv
    subst hinfo
    have hb := flow_info_bytes_l4 env.bigEndian info0 pkt
    have hl : 34 ≤ pkt.length ∧ 20 ≤ ip_hlen pkt ∧ 14 + ip_hlen pkt + 4 ≤ pkt.length := by
      unfold valid_tcp valid_udp valid_ipv4 at hvalid
      omega
    exact ⟨hl.1, hl.2.1, hl.2.2, rfl, rfl, rfl, rfl, rfl, hb⟩
  · intro eth info hv
    obtain ⟨-, -, hd, -⟩ := xdp_parse_cont env.bigEndian info0 pkt eth info hv
    refine ⟨hd, ?_⟩
    rw [hd, bytes32_val32]

/-- The statement of C19 at `frameTcpOpt`, whose IPv4 header has options: the ports are read
at offset 38 and the key is the one of `frameTcp`. -/
theorem flow_key_extraction_witness :
    xdp_parse envDemo.bigEndian stack0 frameTcpOpt = some (Parsed.hhd (some 0) keyTcp) ∧
    ip_hlen frameTcpOpt = 24 ∧
    (34 ≤ frameTcpOpt.length ∧ 20 ≤ ip_hlen frameTcpOpt ∧
      14 + ip_hlen frameTcpOpt + 4 ≤ frameTcpOpt.length ∧
      keyTcp.source_ip = val32 envDemo.bigEndian frameTcpOpt 26 ∧
      keyTcp.dest_ip = val32 envDemo.bigEndian frameTcpOpt 30 ∧
      keyTcp.protocol = rd frameTcpOpt 23 ∧
      keyTcp.source_port = val16 envDemo.bigEndian frameTcpOpt (14 + ip_hlen frameTcpOpt) ∧
      keyTcp.dest_port = val16 envDemo.bigEndian frameTcpOpt (14 + ip_hlen frameTcpOpt + 2) ∧
      (flow_info_bytes envDemo.bigEndian keyTcp).take 13 =
        [frameTcpOpt.getD 26 0, frameTcpOpt.getD 27 0, frameTcpOpt.getD 28 0,
         frameTcpOpt.getD 29 0, frameTcpOpt.getD 30 0, frameTcpOpt.getD 31 0,
         frameTcpOpt.getD 32 0, frameTcpOpt.getD 33 0,
         frameTcpOpt.getD (14 + ip_hlen frameTcpOpt) 0,
         frameTcpOpt.getD (14 + ip_hlen frameTcpOpt + 1) 0,
         frameTcpOpt.getD (14 + ip_hlen frameTcpOpt + 2) 0,
         frameTcpOpt.getD (14 + ip_hlen frameTcpOpt + 3) 0,
         frameTcpOpt.getD 23 0]) :=
  ⟨by decide, by decide,
    (flow_key_extraction envDemo stack0 bloom0 frameTcpOpt).1 (some 0) keyTcp (by decide)⟩

/-- Frame and action returned by the forwarding step, case by case. -/
theorem xdp_forward_frame (env : Env) (bloom : Nat → Nat) (pkt : List Byte)
    (info : flow_info) (hlen : 12 ≤ pkt.length) :
    ∃ r, xdp_forward env bloom pkt (some 0) info = some r ∧
      (env.ipv4_lookup_map info.dest_ip = none → r.action = XDP_ABORTED ∧ r.pkt = pkt) ∧
      (∀ val, env.ipv4_lookup_map info.dest_ip = some val →
        (val.outPort.val < 1 ∨ 4 < val.outPort.val → r.action = XDP_ABORTED ∧ r.pkt = pkt) ∧
        (1 ≤ val.outPort.val ∧ val.outPort.val ≤ 4 →
          (env.src_mac_map val.outPort.val = none → r.action = XDP_ABORTED ∧ r.pkt = pkt) ∧
          (∀ smv, env.src_mac_map val.outPort.val = some smv →
            r.pkt = mac_rewrite pkt val.dstMac smv.srcMac ∧
            (env.bpf_redirect_map val.outPort.val 0 = XDP_REDIRECT →
              r.action = XDP_REDIRECT) ∧
            (env.bpf_redirect_map val.outPort.val 0 ≠ XDP_REDIRECT →
              r.action = XDP_ABORTED)))) := by
  rw [xdp_forward_eq env bloom pkt info hlen]
  refine ⟨_, rfl, ?_, ?_⟩
  · intro hr
    rw [hr]
    exact ⟨rfl, rfl⟩
  · intro val hr
    rw [hr]
    dsimp only
    constructor
    · intro hp
      have hp2 : val.outPort.val < 1 ∨ val.outPort.val > 4 := by omega
      rw [if_pos hp2]
      exact ⟨rfl, rfl⟩
    · intro hp
      have hp2 : ¬ (val.outPort.val < 1 ∨ val.outPort.val > 4) := by omega
      rw [if_neg hp2]
      constructor
      · intro hs
        rw [hs]
        exact ⟨rfl, rfl⟩
      · intro smv hs
        rw [hs]
        dsimp only
        refine ⟨rfl, fun hq => ?_, fun hq => ?_⟩
        · rw [if_pos hq]
        · rw [if_neg hq]

/-! ## Frame rewrite (C20) -/

/-- C20: every invocation returns, and its frame is the input frame unless the packet reaches
the forwarding step and the route lookup, the range check of the egress port and the
source-MAC lookup all succeed.  So the frame is the input when parsing returns (Pass or
Drop), when the detector drops, whenever the action is Pass or Drop, and when the
forwarding step aborts on a route miss, an out-of-range port or a source-MAC miss.  When
the three succeed the frame is the input with bytes 0..5 replaced by the route's
destination MAC and bytes 6..11 by the source MAC, also when the redirect helper then
fails and the action is Abort: the rewrite is not undone. -/
theorem frame_rewrite_cases (env : Env) (info0 : flow_info) (bloom : Nat → Nat)
    (pkt : List Byte) :
    ∃ r, xdp_hhd_v2 env info0 bloom pkt = some r ∧
      (r.action = XDP_PASS ∨ r.action = XDP_DROP → r.pkt = pkt) ∧
      (∀ a, xdp_parse env.bigEndian info0 pkt = some (Parsed.ret a) →
        r.action = a ∧ r.pkt = pkt) ∧
      (∀ eth info, xdp_parse env.bigEndian info0 pkt = some (Parsed.hhd eth info) →
        both_exceed env (bloom_probed env bloom info) info →
        r.action = XDP_DROP ∧ r.pkt = pkt) ∧
      (∀ eth info,
        xdp_parse env.bigEndian info0 pkt = some (Parsed.fwd eth info) ∨
          (xdp_parse env.bigEndian info0 pkt = some (Parsed.hhd eth info) ∧
            ¬ both_exceed env (bloom_probed env bloom info) info) →
        (env.ipv4_lookup_map info.dest_ip = none → r.action = XDP_ABORTED ∧ r.pkt = pkt) ∧
        (∀ val, env.ipv4_lookup_map info.dest_ip = some val →
          (val.outPort.val < 1 ∨ 4 < val.outPort.val →
            r.action = XDP_ABORTED ∧ r.pkt = pkt) ∧
          (1 ≤ val.outPort.val ∧ val.outPort.val ≤ 4 →
            (env.src_mac_map val.outPort.val = none →
              r.action = XDP_ABORTED ∧ r.pkt = pkt) ∧
            (∀ smv, env.src_mac_map val.outPort.val = some smv →
              r.pkt = mac_rewrite pkt val.dstMac smv.srcMac ∧
              r.pkt.length = pkt.length ∧
              (∀ k : Fin 6, r.pkt[k.val]? = some (val.dstMac k)) ∧
              (∀ k : Fin 6, r.pkt[6 + k.val]? = some (smv.srcMac k)) ∧
              (∀ i, 12 ≤ i → r.pkt[i]? = pkt[i]?) ∧
              (env.bpf_redirect_map val.outPort.val 0 = XDP_REDIRECT →
                r.action = XDP_REDIRECT) ∧
              (env.bpf_redirect_map val.outPort.val 0 ≠ XDP_REDIRECT →
                r.action = XDP_ABORTED))))) := by
  have hAP : XDP_ABORTED ≠ XDP_PASS := by decide
  have hAD : XDP_ABORTED ≠ XDP_DROP := by decide
  have hRP : XDP_REDIRECT ≠ XDP_PASS := by decide
  have hRD : XDP_REDIRECT ≠ XDP_DROP := by decide
  have lift : ∀ (b : Nat → Nat) (info : flow_info) (r : XdpResult), 12 ≤ pkt.length →
      xdp_forward env b pkt (some 0) info = some r →
      (r.action = XDP_PASS ∨ r.action = XDP_DROP → r.pkt = pkt) ∧
      ((env.ipv4_lookup_map info.dest_ip = none → r.action = XDP_ABORTED ∧ r.pkt = pkt) ∧
        (∀ val, env.ipv4_lookup_map info.dest_ip = some val →
          (val.outPort.val < 1 ∨ 4 < val.outPort.val →
            r.action = XDP_ABORTED ∧ r.pkt = pkt) ∧
          (1 ≤ val.outPort.val ∧ val.outPort.val ≤ 4 →
            (env.src_mac_map val.outPort.val = none →
              r.action = XDP_ABORTED ∧ r.pkt = pkt) ∧
            (∀ smv, env.src_mac_map val.outPort.val = some smv →
              r.pkt = mac_rewrite pkt val.dstMac smv.srcMac ∧
              r.pkt.length = pkt.length ∧
              (∀ k : Fin 6, r.pkt[k.val]? = some (val.dstMac k)) ∧
              (∀ k : Fin 6, r.pkt[6 + k.val]? = some (smv.srcMac k)) ∧
              (∀ i, 12 ≤ i → r.pkt[i]? = pkt[i]?) ∧
              (env.bpf_redirect_map val.outPort.val 0 = XDP_REDIRECT →
                r.action = XDP_REDIRECT) ∧
              (env.bpf_redirect_map val.outPort.val 0 ≠ XDP_REDIRECT →
                r.action = XDP_ABORTED))))) := by
    intro b info r hl hr
    obtain ⟨r', hr', -, hact⟩ := xdp_forward_action env b pkt info hl
    obtain ⟨r'', hr'', f1, f2⟩ := xdp_forward_frame env b pkt info hl
    rw [hr] at hr' hr''
    simp only [Option.some.injEq] at hr' hr''
    subst hr'
    subst hr''
    refine ⟨fun h => ?_, f1, fun val hv => ⟨(f2 val hv).1, fun hp => ⟨((f2 val hv).2 hp).1,
      fun smv hs => ?_⟩⟩⟩
    · rcases hact with ha | ha <;> rcases h with h | h <;> rw [ha] at h
      · exact absurd h hAP
      · exact absurd h hAD
      · exact absurd h hRP
      · exact absurd h hRD
    · obtain ⟨g1, g2, g3⟩ := ((f2 val hv).2 hp).2 smv hs
      obtain ⟨m1, m2, m3, m4⟩ := mac_rewrite_spec pkt val.dstMac smv.srcMac hl
      rw [g1]
      exact ⟨rfl, m1, m2, m3, m4, g2, g3⟩
  obtain ⟨p, hp⟩ : ∃ p, xdp_parse env.bigEndian info0 pkt = some p :=
    ⟨_, xdp_parse_eq env.bigEndian info0 pkt⟩
  cases p with
  | ret a =>
    rw [xdp_hhd_v2_of_ret env info0 bloom pkt a hp]
    refine ⟨_, rfl, fun _ => rfl, fun a' ha' => ?_, fun eth info h => ?_, fun eth info h => ?_⟩
    · rw [hp] at ha'
      simp only [Option.some.injEq, Parsed.ret.injEq] at ha'
      exact ⟨ha', rfl⟩
    · rw [hp] at h
      exact absurd h (by simp)
    · rw [hp] at h
      rcases h with h | ⟨h, -⟩ <;> exact absurd h (by simp)
  | fwd eth info =>
    obtain ⟨hlen, heth, -⟩ := xdp_parse_cont env.bigEndian info0 pkt eth info (Or.inr hp)
    subst heth
    obtain ⟨r, hr, -⟩ := xdp_forward_action env bloom pkt info (by omega)
    obtain ⟨l1, l2⟩ := lift bloom info r (by omega) hr
    rw [xdp_hhd_v2_of_fwd env info0 bloom pkt _ info hp]
    refine ⟨r, hr, l1, fun a' ha' => ?_, fun eth' info' h => ?_, fun eth' info' h => ?_⟩
    · rw [hp] at ha'
      exact absurd ha' (by simp)
    · rw [hp] at h
      exact absurd h (by simp)
    · rw [hp] at h
      rcases h with h | ⟨h, -⟩
      · simp only [Option.some.injEq, Parsed.fwd.injEq] at h
        obtain ⟨-, h2⟩ := h
        subst h2
        exact l2
      · exact absurd h (by simp)
  | hhd eth info =>
    obtain ⟨hlen, heth, -⟩ := xdp_parse_cont env.bigEndian info0 pkt eth info (Or.inl hp)
    subst heth
    rw [xdp_hhd_v2_of_hhd env info0 bloom pkt _ info hp]
    by_cases hx : both_exceed env (bloom_probed env bloom info) info
    · rw [if_pos hx]
      refine ⟨_, rfl, fun _ => rfl, fun a' ha' => ?_, fun eth' info' h _ => ⟨rfl, rfl⟩,
        fun eth' info' h => ?_⟩
      · rw [hp] at ha'
        exact absurd ha' (by simp)
      · rw [hp] at h
        rcases h with h | ⟨h, hn⟩
        · exact absurd h (by simp)
        · simp only [Option.some.injEq, Parsed.hhd.injEq] at h
          obtain ⟨-, h2⟩ := h
          subst h2
          exact absurd hx hn
    · rw [if_neg hx]
      obtain ⟨r, hr, -⟩ :=
        xdp_forward_action env (bloom_probed env bloom info) pkt info (by omega)
      obtain ⟨l1, l2⟩ := lift (bloom_probed env bloom info) info r (by omega) hr
      refine ⟨r, hr, l1, fun a' ha' => ?_, fun eth' info' h hx' => ?_, fun eth' info' h => ?_⟩
      · rw [hp] at ha'
        exact absurd ha' (by simp)
      · rw [hp] at h
        simp only [Option.some.injEq, Parsed.hhd.injEq] at h
        obtain ⟨-, h2⟩ := h
        subst h2
        exact absurd hx' hx
      · rw [hp] at h
        rcases h with h | ⟨h, -⟩
        · exact absurd h (by simp)
        · simp only [Option.some.injEq, Parsed.hhd.injEq] at h
          obtain ⟨-, h2⟩ := h
          subst h2
          exact l2

/-- The statement of C20 at `frameIcmp` under `envRedirectFail`: route, port and source MAC
are found, the redirect helper fails, the action is Abort and the frame carries the new
MAC addresses. -/
theorem frame_rewrite_cases_witness :
    xdp_parse envRedirectFail.bigEndian stack0 frameIcmp =
      some (Parsed.fwd (some 0) keyIcmp) ∧
    envRedirectFail.ipv4_lookup_map keyIcmp.dest_ip = some routeDemo ∧
    (1 ≤ routeDemo.outPort.val ∧ routeDemo.outPort.val ≤ 4) ∧
    envRedirectFail.src_mac_map routeDemo.outPort.val = some srcMacDemo ∧
    envRedirectFail.bpf_redirect_map routeDemo.outPort.val 0 ≠ XDP_REDIRECT ∧
    ∃ r, xdp_hhd_v2 envRedirectFail stack0 bloom0 frameIcmp = some r ∧
      r.action = XDP_ABORTED ∧
      r.pkt = mac_rewrite frameIcmp routeDemo.dstMac srcMacDemo.srcMac ∧
      r.pkt ≠ frameIcmp ∧
      (∀ k : Fin 6, r.pkt[k.val]? = some (routeDemo.dstMac k)) ∧
      (∀ k : Fin 6, r.pkt[6 + k.val]? = some (srcMacDemo.srcMac k)) := by
  obtain ⟨r, hr, -, -, -, h4⟩ := frame_rewrite_cases envRedirectFail stack0 bloom0 frameIcmp
  obtain ⟨-, h5⟩ := h4 (some 0) keyIcmp (Or.inl (by decide))
  obtain ⟨g1, -, g3, g4, -, -, g7⟩ := ((h5 routeDemo rfl).2 (by decide)).2 srcMacDemo rfl
  refine ⟨by decide, rfl, by decide, rfl, by decide, r, hr, g7 (by decide), g1, ?_, g3, g4⟩
  rw [g1]
  decide

end HHD
